import Mathlib

/-!
Verification of the DPDS descriptor validation and schema-normalization engine
(`src/lib/verify.ts`, the zod schema module `zodSchemas.ts`, and
`src/schemaUtils.ts`) against its natural-language specification.

JSON-compatible values are embedded as the inductive type `Json`; JS objects
become association lists of key/value pairs (JS objects cannot hold duplicate
keys, and property access is first-match lookup).
-/

/-- A JSON-compatible value (the values produced by `JSON.parse`).
Numbers are embedded as `Int`: the numeric inputs relevant to the claims are
integral, and the verified code inspects numbers only for JS truthiness
(zero-ness). -/
inductive Json where
  | null
  | bool (b : Bool)
  | num (n : Int)
  | str (s : String)
  | arr (elems : List Json)
  | obj (entries : List (String × Json))
deriving Repr

mutual

/-- Equality of embedded JSON values is decidable; the decision procedure is
written as a term-level structural recursion (through the nested lists) so
that it also evaluates inside the kernel, keeping `decide` usable on
concrete descriptors. -/
def decJson (a b : Json) : Decidable (a = b) :=
  match a, b with
  | .null, .null => isTrue rfl
  | .bool x, .bool y =>
    if h : x = y then isTrue (by rw [h]) else isFalse (fun hc => h (Json.bool.inj hc))
  | .num x, .num y =>
    if h : x = y then isTrue (by rw [h]) else isFalse (fun hc => h (Json.num.inj hc))
  | .str x, .str y =>
    if h : x = y then isTrue (by rw [h]) else isFalse (fun hc => h (Json.str.inj hc))
  | .arr xs, .arr ys =>
    match decJsonList xs ys with
    | isTrue h => isTrue (congrArg Json.arr h)
    | isFalse h => isFalse (fun hc => h (Json.arr.inj hc))
  | .obj xs, .obj ys =>
    match decJsonEntryList xs ys with
    | isTrue h => isTrue (congrArg Json.obj h)
    | isFalse h => isFalse (fun hc => h (Json.obj.inj hc))
  | .null, .bool _ | .null, .num _ | .null, .str _ | .null, .arr _ | .null, .obj _
  | .bool _, .null | .bool _, .num _ | .bool _, .str _ | .bool _, .arr _ | .bool _, .obj _
  | .num _, .null | .num _, .bool _ | .num _, .str _ | .num _, .arr _ | .num _, .obj _
  | .str _, .null | .str _, .bool _ | .str _, .num _ | .str _, .arr _ | .str _, .obj _
  | .arr _, .null | .arr _, .bool _ | .arr _, .num _ | .arr _, .str _ | .arr _, .obj _
  | .obj _, .null | .obj _, .bool _ | .obj _, .num _ | .obj _, .str _ | .obj _, .arr _ =>
    isFalse (fun hc => Json.noConfusion hc)

def decJsonList (l1 l2 : List Json) : Decidable (l1 = l2) :=
  match l1, l2 with
  | [], [] => isTrue rfl
  | [], _ :: _ => isFalse (fun hc => List.noConfusion hc)
  | _ :: _, [] => isFalse (fun hc => List.noConfusion hc)
  | x :: xs, y :: ys =>
    match decJson x y with
    | isFalse hx => isFalse (fun hc => hx (List.cons.inj hc).1)
    | isTrue hx =>
      match decJsonList xs ys with
      | isTrue ht => isTrue (by rw [hx, ht])
      | isFalse ht => isFalse (fun hc => ht (List.cons.inj hc).2)

def decJsonEntryList (l1 l2 : List (String × Json)) : Decidable (l1 = l2) :=
  match l1, l2 with
  | [], [] => isTrue rfl
  | [], _ :: _ => isFalse (fun hc => List.noConfusion hc)
  | _ :: _, [] => isFalse (fun hc => List.noConfusion hc)
  | (k1, v1) :: xs, (k2, v2) :: ys =>
    if hk : k1 = k2 then
      match decJson v1 v2 with
      | isFalse hv => isFalse (fun hc => hv (Prod.mk.inj (List.cons.inj hc).1).2)
      | isTrue hv =>
        match decJsonEntryList xs ys with
        | isTrue ht => isTrue (by rw [hk, hv, ht])
        | isFalse ht => isFalse (fun hc => ht (List.cons.inj hc).2)
    else isFalse (fun hc => hk (Prod.mk.inj (List.cons.inj hc).1).1)

end

instance : DecidableEq Json := decJson

deriving instance DecidableEq for Except

/-- First-match key lookup: the semantics of JS property access `o[k]` on an
object (`none` means the property is absent, i.e. `undefined`). -/
def jlookup (k : String) : List (String × Json) → Option Json
  | [] => none
  | (k', v) :: rest => if k' = k then some v else jlookup k rest

/-- JS property access on an arbitrary value; yields `none` (≈ `undefined`)
on non-objects (the code only dereferences values it knows to be objects). -/
def getKey (j : Json) (k : String) : Option Json :=
  match j with
  | .obj kvs => jlookup k kvs
  | _ => none

/-- The JS `in` operator (key presence) on a value known to be an object. -/
def hasKey (j : Json) (k : String) : Bool :=
  (getKey j k).isSome

/-- JS truthiness of a JSON-representable value (`undefined` is handled by
`Option` at the use sites). -/
def jsTruthy : Json → Bool
  | .null => false
  | .bool b => b
  | .num n => decide (n ≠ 0)
  | .str s => decide (s ≠ "")
  | .arr _ => true
  | .obj _ => true

/-- JS truthiness of a possibly-absent property (`undefined` is falsy). -/
def truthyOpt : Option Json → Bool
  | none => false
  | some j => jsTruthy j

-- ===============================================================
-- Format validators (zodSchemas.ts, "Custom Validators" section).
-- Each regex of the source is compiled into an executable matcher on the
-- string's character list. Matchers are derived from the regexes; where a
-- separator character does not occur in any character class of the regex,
-- the unique match decomposition is realised by splitting on that separator.
-- ===============================================================

/-- Split a character list on a separator character (every occurrence,
preserving empty groups) — used to realise regexes whose groups cannot
contain the separator. -/
def splitCh (sep : Char) : List Char → List (List Char)
  | [] => [[]]
  | c :: cs =>
    match splitCh sep cs with
    | [] => if c = sep then [[], []] else [[c]]
    | g :: gs => if c = sep then [] :: g :: gs else (c :: g) :: gs

/-- Hexadecimal digit, either case (`[0-9a-f]` under the `i` flag). -/
def isHexDigit (c : Char) : Bool :=
  c.isDigit || ('a' ≤ c && c ≤ 'f') || ('A' ≤ c && c ≤ 'F')

/-- JS `\w`: `[A-Za-z0-9_]`. -/
def isWordChar (c : Char) : Bool :=
  c.isAlphanum || c = '_'

/-- JS `\s` (the whitespace set of JS regexes). -/
def jsSpace (c : Char) : Bool :=
  c = ' ' || c = '\t' || c = '\n' || c.val = 0x0B || c.val = 0x0C || c = '\r' ||
  c.val = 0xA0 || c.val = 0x1680 || (0x2000 ≤ c.val && c.val ≤ 0x200A) ||
  c.val = 0x2028 || c.val = 0x2029 || c.val = 0x202F || c.val = 0x205F ||
  c.val = 0x3000 || c.val = 0xFEFF

/-- JS line terminators (the characters `.` does not match). -/
def isLineTerminator (c : Char) : Bool :=
  c = '\n' || c = '\r' || c.val = 0x2028 || c.val = 0x2029

/-- `/^[0-9a-f]{8}-[0-9a-f]{4}-[0-9a-f]{4}-[0-9a-f]{4}-[0-9a-f]{12}$/i`:
five dash-separated hex groups of lengths 8-4-4-4-12 ('-' occurs in no
character class, so splitting on '-' is the unique decomposition). -/
def uuidMatch (cs : List Char) : Bool :=
  match splitCh '-' cs with
  | [a, b, c, d, e] =>
    a.length = 8 && b.length = 4 && c.length = 4 && d.length = 4 && e.length = 12 &&
    (a.all isHexDigit && b.all isHexDigit && c.all isHexDigit &&
     d.all isHexDigit && e.all isHexDigit)
  | _ => false

/-- `[a-zA-Z0-9][\w\.\-]*`: alphanumeric head, then word chars, dots, dashes. -/
def meshNamespaceMatch (cs : List Char) : Bool :=
  match cs with
  | [] => false
  | c :: rest => c.isAlphanum && rest.all (fun d => isWordChar d || d = '.' || d = '-')

/-- `[a-zA-Z0-9][\w\-]*`: alphanumeric head, then word chars and dashes. -/
def segmentNameMatch (cs : List Char) : Bool :=
  match cs with
  | [] => false
  | c :: rest => c.isAlphanum && rest.all (fun d => isWordChar d || d = '-')

/-- The FQN regex
`/^urn:dpds:[a-zA-Z0-9][\w\.\-]*:dataproducts:[a-zA-Z0-9][\w\-]*:[0-9]+(:(input|output)ports:[a-zA-Z0-9][\w\-]*)?$/`.
No character class of the regex contains ':', so a match decomposes uniquely
into the colon-separated groups. -/
def fqnMatch (cs : List Char) : Bool :=
  match splitCh ':' cs with
  | [u, d, ns, dp, nm, ver] =>
    u = "urn".data && d = "dpds".data && meshNamespaceMatch ns &&
    dp = "dataproducts".data && segmentNameMatch nm &&
    (decide (ver ≠ []) && ver.all Char.isDigit)
  | [u, d, ns, dp, nm, ver, pk, pn] =>
    u = "urn".data && d = "dpds".data && meshNamespaceMatch ns &&
    dp = "dataproducts".data && segmentNameMatch nm &&
    (decide (ver ≠ []) && ver.all Char.isDigit) &&
    (pk = "inputports".data || pk = "outputports".data) && segmentNameMatch pn
  | _ => false

/-- `/^[a-zA-Z0-9]+$/`. -/
def alphanumericMatch (cs : List Char) : Bool :=
  decide (cs ≠ []) && cs.all Char.isAlphanum

/-- `/^[a-zA-Z0-9][\w\.\-]*$/`. -/
def domainMatch (cs : List Char) : Bool :=
  meshNamespaceMatch cs

/-- `/^[a-z][a-zA-Z0-9]*$/`. -/
def camelCaseMatch (cs : List Char) : Bool :=
  match cs with
  | [] => false
  | c :: rest => c.isLower && rest.all Char.isAlphanum

/-- Character class `[a-zA-Z0-9\.]` of the semver pre-release/build groups. -/
def semverTagChar (c : Char) : Bool :=
  c.isAlphanum || c = '.'

/-- The optional `(-[a-zA-Z0-9\.]+)?(\+[a-zA-Z0-9\.]+)?$` suffix of the
version regex. The tag character class excludes '-' and '+', so the greedy
spans below are the unique possible decompositions. -/
def semverSuffixMatch : List Char → Bool
  | [] => true
  | '+' :: build => decide (build ≠ []) && build.all semverTagChar
  | '-' :: rest =>
    let pre := rest.takeWhile semverTagChar
    let after := rest.dropWhile semverTagChar
    decide (pre ≠ []) &&
      (match after with
       | [] => true
       | '+' :: build => decide (build ≠ []) && build.all semverTagChar
       | _ => false)
  | _ => false

/-- `/^\d+\.\d+\.\d+(-[a-zA-Z0-9\.]+)?(\+[a-zA-Z0-9\.]+)?$/`. -/
def versionMatch (cs : List Char) : Bool :=
  let d1 := cs.takeWhile Char.isDigit
  let r1 := cs.dropWhile Char.isDigit
  decide (d1 ≠ []) &&
    (match r1 with
     | '.' :: r2 =>
       let d2 := r2.takeWhile Char.isDigit
       let r3 := r2.dropWhile Char.isDigit
       decide (d2 ≠ []) &&
         (match r3 with
          | '.' :: r4 =>
            let d3 := r4.takeWhile Char.isDigit
            let r5 := r4.dropWhile Char.isDigit
            decide (d3 ≠ []) && semverSuffixMatch r5
          | _ => false)
     | _ => false)

/-- `/^(https?|ftp):\/\/[^\s/$.?#].[^\s]*$/i`: a scheme (ASCII
case-insensitive), "://", one character outside `\s` and `/$.?#`, one
character that is not a line terminator, then non-whitespace characters. -/
def uriMatch (cs : List Char) : Bool :=
  let lower := cs.map Char.toLower
  let body : List Char → Bool := fun rest =>
    match rest with
    | c1 :: c2 :: tail =>
      !jsSpace c1 && !(c1 = '/') && !(c1 = '$') && !(c1 = '.') && !(c1 = '?') && !(c1 = '#') &&
      !isLineTerminator c2 && tail.all (fun c => !jsSpace c)
    | _ => false
  if lower.take 7 = "http://".data then body (cs.drop 7)
  else if lower.take 8 = "https://".data then body (cs.drop 8)
  else if lower.take 6 = "ftp://".data then body (cs.drop 6)
  else false

/-- Character class `[a-z0-9+\-.]` of the URI-reference scheme (under `i`). -/
def uriSchemeChar (c : Char) : Bool :=
  c.isAlpha || c.isDigit || c = '+' || c = '-' || c = '.'

/-- `/^(\.{0,2}\/[^\s]*|[a-z][a-z0-9+\-.]*:[^\s]*|#[^\s]*)$/i`: a relative
path (0–2 dots then '/'), an absolute URI (scheme then ':'; the scheme class
excludes ':', so the first colon is the unique split point), or a fragment. -/
def uriReferenceMatch (cs : List Char) : Bool :=
  let nonSpace : List Char → Bool := fun l => l.all (fun c => !jsSpace c)
  let alt1 :=
    match cs with
    | '/' :: r => nonSpace r
    | '.' :: '/' :: r => nonSpace r
    | '.' :: '.' :: '/' :: r => nonSpace r
    | _ => false
  let alt2 :=
    match cs with
    | c0 :: rest =>
      c0.isAlpha &&
        (match rest.dropWhile uriSchemeChar with
         | ':' :: tail => nonSpace tail
         | _ => false)
    | [] => false
  let alt3 :=
    match cs with
    | '#' :: r => nonSpace r
    | _ => false
  alt1 || alt2 || alt3

-- The eight validators of zodSchemas.ts: each is
-- `(val?: string) => val === undefined || regex.test(val)`.

/-- `isValidUuid` from zodSchemas.ts. -/
def isValidUuid : Option String → Bool
  | none => true
  | some s => uuidMatch s.data

/-- `isValidFqn` from zodSchemas.ts. -/
def isValidFqn : Option String → Bool
  | none => true
  | some s => fqnMatch s.data

/-- `isValidAlphanumeric` from zodSchemas.ts. -/
def isValidAlphanumeric : Option String → Bool
  | none => true
  | some s => alphanumericMatch s.data

/-- `isValidDomain` from zodSchemas.ts. -/
def isValidDomain : Option String → Bool
  | none => true
  | some s => domainMatch s.data

/-- `isValidCamelCase` from zodSchemas.ts. -/
def isValidCamelCase : Option String → Bool
  | none => true
  | some s => camelCaseMatch s.data

/-- `isValidVersion` from zodSchemas.ts. -/
def isValidVersion : Option String → Bool
  | none => true
  | some s => versionMatch s.data

/-- `isValidUri` from zodSchemas.ts. -/
def isValidUri : Option String → Bool
  | none => true
  | some s => uriMatch s.data

/-- `isValidUriReference` from zodSchemas.ts. -/
def isValidUriReference : Option String → Bool
  | none => true
  | some s => uriReferenceMatch s.data

example : isValidUuid (some "123e4567-e89b-12d3-a456-426614174000") = true := by decide
example : isValidUuid (some "123e4567-e89b-12d3-a456") = false := by decide
example : isValidFqn (some "urn:dpds:org.example:dataproducts:sample:1") = true := by decide
example : isValidFqn (some "urn:dpds:it.quantyca:dataproducts:tripExecution:1:outputports:tripDetails") = true := by decide
example : isValidFqn (some "urn:dpds:org.example:dataproducts:sample") = false := by decide
example : isValidCamelCase (some "sample") = true := by decide
example : isValidCamelCase (some "Sample") = false := by decide
example : isValidVersion (some "1.0.0") = true := by decide
example : isValidVersion (some "v1") = false := by decide
example : isValidVersion (some "1.0.0-alpha.1+build.5") = true := by decide
example : isValidDomain (some "org.example") = true := by decide
example : isValidUri (some "https://example.com/docs") = true := by decide
example : isValidUri (some "not a uri") = false := by decide
example : isValidUriReference (some "./some/path") = true := by decide
example : isValidUriReference (some "#/definitions/x") = true := by decide
example : isValidUriReference (some "https://example.com/x") = true := by decide

-- ===============================================================
-- A deep embedding of the fragment of the zod schema language used by
-- zodSchemas.ts, together with an interpreter for zod's `safeParse`.
-- ===============================================================

/-- The zod schema combinators used by zodSchemas.ts.

* `str` — `z.string()`
* `strRefine test msg` — `z.string().refine(test, { message: msg })`
  (`test` receives the parsed string)
* `optStrRefine test msg` — `z.string().optional().refine(test, { message: msg })`
  (zod runs the refinement even when the value is `undefined`, which is why
  every validator in zodSchemas.ts accepts `undefined`; `test` receives
  `none` in that case)
* `num` — `z.number()`
* `any` — `z.any()`
* `opt s` — `s.optional()` for non-string-refined schemas
* `obj shape passthrough` — `z.object(shape)`; `passthrough = true` for
  `.passthrough()` objects (unknown keys preserved), `false` for the default
  strip mode (unknown keys dropped); either way unknown keys are never
  validated
* `arr elem` — `z.array(elem)`
* `record elem` — `z.record(elem)`
* `union2 a b` — `z.union([a, b])` (every union in zodSchemas.ts is binary;
  zod returns the first succeeding branch, and on failure the formatted
  errors of all branches) -/
inductive ZSchema where
  | str
  | strRefine (test : Option String → Bool) (msg : String)
  | optStrRefine (test : Option String → Bool) (msg : String)
  | num
  | any
  | opt (s : ZSchema)
  | obj (shape : List (String × ZSchema)) (passthrough : Bool)
  | arr (elem : ZSchema)
  | record (elem : ZSchema)
  | union2 (a b : ZSchema)

/-- zod's `getParsedType`, used in its `invalid_type` messages. -/
def typeName : Json → String
  | .null => "null"
  | .bool _ => "boolean"
  | .num _ => "number"
  | .str _ => "string"
  | .arr _ => "array"
  | .obj _ => "object"

/-- A zod issue after `ZodError.format` flattening: a path (object keys and
stringified array indices) together with a message. -/
abbrev ZIssue := List String × String

/-- Prefix every issue of a list with one more leading path segment. -/
def prefixIssues (seg : String) (es : List ZIssue) : List ZIssue :=
  es.map (fun e => (seg :: e.1, e.2))

/-- Parse each declared field of an object shape: returns the collected
(path-prefixed) issues and the successfully parsed fields, both in shape
order. A field whose schema accepts the absent value contributes no output
entry (zod omits keys parsed from `undefined`). `p` is the parser for the
field schemas. -/
def parseFields (p : ZSchema → Option Json → Except (List ZIssue) (Option Json))
    (kvs : List (String × Json)) :
    List (String × ZSchema) → List ZIssue × List (String × Json)
  | [] => ([], [])
  | (k, fs) :: rest =>
    let tail := parseFields p kvs rest
    match p fs (jlookup k kvs) with
    | .ok none => tail
    | .ok (some pv) => (tail.1, (k, pv) :: tail.2)
    | .error es => (prefixIssues k es ++ tail.1, tail.2)

/-- Is a key declared in an object shape? -/
def shapeHasKey (shape : List (String × ZSchema)) (k : String) : Bool :=
  shape.any (fun kv => kv.1 = k)

/-- Parse the elements of an array against the element parser `p`, starting
at index `i`: collected issues (paths prefixed with the decimal index, as in
`ZodError.format`) and parsed elements. -/
def parseItems (p : Json → Except (List ZIssue) (Option Json)) (i : Nat) :
    List Json → List ZIssue × List Json
  | [] => ([], [])
  | x :: xs =>
    let tail := parseItems p (i + 1) xs
    match p x with
    | .ok pv => (tail.1, pv.getD x :: tail.2)
    | .error es => (prefixIssues (toString i) es ++ tail.1, tail.2)

/-- Parse the values of a record (`z.record`), prefixing issues with the
map key. -/
def parseRecordEntries (p : Json → Except (List ZIssue) (Option Json)) :
    List (String × Json) → List ZIssue × List (String × Json)
  | [] => ([], [])
  | (k, v) :: rest =>
    let tail := parseRecordEntries p rest
    match p v with
    | .ok pv => (tail.1, (k, pv.getD v) :: tail.2)
    | .error es => (prefixIssues k es ++ tail.1, tail.2)

/-- The zod `safeParse` semantics for the combinators above. The input
`Option Json` distinguishes an absent value (`none` ≈ JS `undefined`) from a
present one; the output `Option Json` is the parsed value (`none` when an
optional absent field parses to `undefined`). Fuel decreases only on schema
descent, so any fuel exceeding the schema's nesting depth is enough for every
input; the fuel-exhaustion branch is unreachable for the fixed schemas below
under `parseFuel`. -/
def zparseF : Nat → ZSchema → Option Json → Except (List ZIssue) (Option Json)
  | 0, _, _ => .error [([], "schema nesting limit exceeded")]
  | _ + 1, .str, none => .error [([], "Required")]
  | _ + 1, .str, some (.str t) => .ok (some (.str t))
  | _ + 1, .str, some j => .error [([], "Expected string, received " ++ typeName j)]
  | _ + 1, .strRefine _ _, none => .error [([], "Required")]
  | _ + 1, .strRefine test msg, some (.str t) =>
      if test (some t) then .ok (some (.str t)) else .error [([], msg)]
  | _ + 1, .strRefine _ _, some j => .error [([], "Expected string, received " ++ typeName j)]
  | _ + 1, .optStrRefine test msg, none =>
      if test none then .ok none else .error [([], msg)]
  | _ + 1, .optStrRefine test msg, some (.str t) =>
      if test (some t) then .ok (some (.str t)) else .error [([], msg)]
  | _ + 1, .optStrRefine _ _, some j => .error [([], "Expected string, received " ++ typeName j)]
  | _ + 1, .num, none => .error [([], "Required")]
  | _ + 1, .num, some (.num n) => .ok (some (.num n))
  | _ + 1, .num, some j => .error [([], "Expected number, received " ++ typeName j)]
  | _ + 1, .any, v => .ok v
  | _ + 1, .opt _, none => .ok none
  | f + 1, .opt s, some j => zparseF f s (some j)
  | _ + 1, .obj _ _, none => .error [([], "Required")]
  | f + 1, .obj shape pass, some (.obj kvs) =>
      let r := parseFields (zparseF f) kvs shape
      match r.1 with
      | [] =>
        .ok (some (.obj (r.2 ++ (if pass then kvs.filter (fun kv => !shapeHasKey shape kv.1) else []))))
      | es => .error es
  | _ + 1, .obj _ _, some j => .error [([], "Expected object, received " ++ typeName j)]
  | _ + 1, .arr _, none => .error [([], "Required")]
  | f + 1, .arr e, some (.arr xs) =>
      let r := parseItems (fun x => zparseF f e (some x)) 0 xs
      match r.1 with
      | [] => .ok (some (.arr r.2))
      | es => .error es
  | _ + 1, .arr _, some j => .error [([], "Expected array, received " ++ typeName j)]
  | _ + 1, .record _, none => .error [([], "Required")]
  | f + 1, .record e, some (.obj kvs) =>
      let r := parseRecordEntries (fun x => zparseF f e (some x)) kvs
      match r.1 with
      | [] => .ok (some (.obj r.2))
      | es => .error es
  | _ + 1, .record _, some j => .error [([], "Expected object, received " ++ typeName j)]
  | f + 1, .union2 a b, v =>
      match zparseF f a v with
      | .ok r => .ok r
      | .error ea =>
        match zparseF f b v with
        | .ok r => .ok r
        | .error eb => .error (ea ++ eb)

-- ===============================================================
-- The schemas of zodSchemas.ts as `ZSchema` values (same names, same
-- field order; `.extend` appends the new fields after the base shape and
-- keeps the base's unknown-key policy).
-- ===============================================================

/-- Message of the `fullyQualifiedName` refinement (shared by `entitySchema`
and `infoSchema`). -/
def fqnMessage : String :=
  "fullyQualifiedName must be a URN of the form urn:dpds:{mesh-namespace}:dataproducts:{product-name}:{product-major-version} or urn:dpds:{mesh-namespace}:dataproducts:{product-name}:{product-major-version}:(input|output)ports:{port-name}"

/-- The inline `externalDocs` object of `entitySchema` (strip mode). -/
def externalDocsSchema : ZSchema :=
  .obj [("description", .opt .str), ("mediaType", .opt .str),
        ("$href", .strRefine isValidUri "$href must be a valid URI")] false

/-- The shape of `entitySchema` (a `.passthrough()` object). -/
def entityShape : List (String × ZSchema) :=
  [("id", .optStrRefine isValidUuid "id must be a valid UUID format"),
   ("fullyQualifiedName", .optStrRefine isValidFqn fqnMessage),
   ("entityType", .optStrRefine isValidAlphanumeric "entityType must contain only alphanumeric characters"),
   ("name", .strRefine isValidCamelCase "name must be in a valid format (camelCase)"),
   ("version", .strRefine isValidVersion "version must follow semantic versioning format"),
   ("displayName", .opt .str),
   ("description", .opt .str),
   ("componentGroup", .opt .str),
   ("tags", .opt (.arr .str)),
   ("externalDocs", .opt externalDocsSchema)]

/-- `entitySchema`. -/
def entitySchema : ZSchema := .obj entityShape true

/-- `referenceSchema` (a plain `z.object`, strip mode). -/
def referenceSchema : ZSchema :=
  .obj [("$ref", .strRefine isValidUriReference "$ref must be a valid URI reference"),
        ("mediaType", .opt .str), ("description", .opt .str)] false

/-- `externalResourceSchema`. -/
def externalResourceSchema : ZSchema :=
  .obj [("description", .opt .str), ("mediaType", .opt .str),
        ("$href", .strRefine isValidUri "$href must be a valid URI")] false

/-- `ownerSchema` (`.passthrough()`). -/
def ownerSchema : ZSchema :=
  .obj [("id", .str), ("name", .opt .str)] true

/-- `contactPointSchema` (`.passthrough()`). -/
def contactPointSchema : ZSchema :=
  .obj [("name", .opt .str), ("description", .opt .str),
        ("channel", .opt .str), ("address", .opt .str)] true

/-- `objectOrStringSchema = z.union([z.record(z.any()), z.string()])`. -/
def objectOrStringSchema : ZSchema := .union2 (.record .any) .str

/-- `objectOrReferenceSchema = z.union([z.record(z.any()), referenceSchema])`. -/
def objectOrReferenceSchema : ZSchema := .union2 (.record .any) referenceSchema

/-- `standardDefinitionSchema = entitySchema.extend({...})`. -/
def standardDefinitionSchema : ZSchema :=
  .obj (entityShape ++
    [("specification", .str),
     ("specificationVersion", .opt .str),
     ("definition", objectOrStringSchema)]) true

/-- `promisesSchema` (`.passthrough()`); note that `api`, `deprecationPolicy`
and `slo` are `standardDefinitionSchema.optional()`, with no Reference
branch. -/
def promisesSchema : ZSchema :=
  .obj [("platform", .opt .str), ("servicesType", .opt .str),
        ("api", .opt standardDefinitionSchema),
        ("deprecationPolicy", .opt standardDefinitionSchema),
        ("slo", .opt standardDefinitionSchema)] true

/-- `expectationsSchema` (`.passthrough()`). -/
def expectationsSchema : ZSchema :=
  .obj [("audience", .opt standardDefinitionSchema),
        ("usage", .opt standardDefinitionSchema)] true

/-- `obligationsSchema` (`.passthrough()`). -/
def obligationsSchema : ZSchema :=
  .obj [("termsAndConditions", .opt standardDefinitionSchema),
        ("billingPolicy", .opt standardDefinitionSchema),
        ("sla", .opt standardDefinitionSchema)] true

/-- `portSchema = entitySchema.extend({promises, expectations, obligations})`. -/
def portSchema : ZSchema :=
  .obj (entityShape ++
    [("promises", .opt (.union2 promisesSchema referenceSchema)),
     ("expectations", .opt (.union2 expectationsSchema referenceSchema)),
     ("obligations", .opt (.union2 obligationsSchema referenceSchema))]) true

/-- `inputPortSchema = z.lazy(() => portSchema.extend({}))` — the lazy
wrapper and empty extension change nothing. -/
def inputPortSchema : ZSchema := portSchema

/-- `outputPortSchema`. -/
def outputPortSchema : ZSchema := portSchema

/-- `discoveryPortSchema`. -/
def discoveryPortSchema : ZSchema := portSchema

/-- `observabilityPortSchema`. -/
def observabilityPortSchema : ZSchema := portSchema

/-- `controlPortSchema`. -/
def controlPortSchema : ZSchema := portSchema

/-- `applicationComponentSchema = entitySchema.extend({...})`. -/
def applicationComponentSchema : ZSchema :=
  .obj (entityShape ++
    [("platform", .opt .str), ("applicationType", .opt .str),
     ("consumesFrom", .opt (.arr .str)), ("providesTo", .opt (.arr .str)),
     ("dependsOn", .opt (.arr .str))]) true

/-- `infrastructuralComponentSchema = entitySchema.extend({...})`. -/
def infrastructuralComponentSchema : ZSchema :=
  .obj (entityShape ++
    [("platform", .opt .str), ("infrastructureType", .opt .str),
     ("dependsOn", .opt (.arr .str))]) true

/-- `lifecycleTaskInfoSchema` (`.passthrough()`). -/
def lifecycleTaskInfoSchema : ZSchema :=
  .obj [("name", .opt .str), ("order", .opt .num),
        ("service", .opt externalResourceSchema),
        ("template", .opt (.union2 standardDefinitionSchema referenceSchema)),
        ("configurations", .opt objectOrReferenceSchema)] true

/-- `interfaceComponentsSchema` (plain `z.object`, strip mode;
`outputPorts` is the only required field). -/
def interfaceComponentsSchema : ZSchema :=
  .obj [("inputPorts", .opt (.arr (.union2 inputPortSchema referenceSchema))),
        ("outputPorts", .arr (.union2 outputPortSchema referenceSchema)),
        ("discoveryPorts", .opt (.arr (.union2 discoveryPortSchema referenceSchema))),
        ("observabilityPorts", .opt (.arr (.union2 observabilityPortSchema referenceSchema))),
        ("controlPorts", .opt (.arr (.union2 controlPortSchema referenceSchema)))] false

/-- `internalComponentsSchema`. -/
def internalComponentsSchema : ZSchema :=
  .obj [("lifecycleInfo", .opt (.record (.arr lifecycleTaskInfoSchema))),
        ("applicationComponents", .opt (.arr (.union2 applicationComponentSchema referenceSchema))),
        ("infrastructuralComponents", .opt (.arr (.union2 infrastructuralComponentSchema referenceSchema)))] false

/-- `componentsSchema` (`.passthrough()`). -/
def componentsSchema : ZSchema :=
  .obj [("inputPorts", .opt (.record (.union2 inputPortSchema referenceSchema))),
        ("outputPorts", .opt (.record (.union2 outputPortSchema referenceSchema))),
        ("discoveryPorts", .opt (.record (.union2 discoveryPortSchema referenceSchema))),
        ("observabilityPorts", .opt (.record (.union2 observabilityPortSchema referenceSchema))),
        ("controlPorts", .opt (.record (.union2 controlPortSchema referenceSchema))),
        ("applicationComponents", .opt (.record (.union2 applicationComponentSchema referenceSchema))),
        ("infrastructuralComponents", .opt (.record (.union2 infrastructuralComponentSchema referenceSchema)))] true

/-- `infoSchema` (`.passthrough()`). -/
def infoSchema : ZSchema :=
  .obj [("id", .optStrRefine isValidUuid "id must be a valid UUID format"),
        ("fullyQualifiedName", .strRefine isValidFqn fqnMessage),
        ("entityType", .optStrRefine isValidAlphanumeric "entityType must contain only alphanumeric characters"),
        ("name", .strRefine isValidCamelCase "name must be in a valid format (camelCase)"),
        ("version", .strRefine isValidVersion "version must follow semantic versioning format"),
        ("displayName", .opt .str),
        ("description", .opt .str),
        ("domain", .str),
        ("owner", ownerSchema),
        ("contactPoints", .opt (.arr contactPointSchema))] true

/-- `dataProductDescriptorSchema` (the root schema, strip mode). -/
def dataProductDescriptorSchema : ZSchema :=
  .obj [("dataProductDescriptor", .strRefine isValidVersion "dataProductDescriptor must follow semantic versioning format"),
        ("info", infoSchema),
        ("interfaceComponents", interfaceComponentsSchema),
        ("internalComponents", .opt internalComponentsSchema),
        ("components", .opt componentsSchema),
        ("tags", .opt (.arr .str)),
        ("externalDocs", .opt externalResourceSchema)] false

/-- Fuel amply exceeding the nesting depth of every schema above. -/
def parseFuel : Nat := 64

/-- `schema.safeParse(data)` on a present value: issue list on failure,
parsed (stripped/passthrough) value on success. -/
def safeParse (s : ZSchema) (j : Json) : Except (List ZIssue) Json :=
  match zparseF parseFuel s (some j) with
  | .ok r => .ok (r.getD j)
  | .error es => .error es

-- ===============================================================
-- verify.ts: error formatting, verifyDataProduct, checkBestPractices,
-- verifyFile.
-- ===============================================================

/-- The net effect of `formatZodErrors(result.error.format())` on one issue:
the issue's path segments joined with dots and prefixed to the message, with
the prefix omitted when the issue is rooted at the document root.
(`ZodError.format` arranges issues in a tree keyed by path segment —
stringifying array indices — and `formatZodErrors` walks that tree rebuilding
`path ? path + ": " + err : err` for each collected message.) -/
def formatIssue (e : ZIssue) : String :=
  if e.1 = [] then e.2 else String.intercalate "." e.1 ++ ": " ++ e.2

/-- `validateDataProductDescriptor` (via `validateWithSchema`): `safeParse`
against the root schema with the issues formatted into flat strings. -/
def validateDataProductDescriptor (j : Json) : Except (List String) Json :=
  match safeParse dataProductDescriptorSchema j with
  | .ok parsed => .ok parsed
  | .error es => .error (es.map formatIssue)

/-- `VerificationResult` from verify.ts. -/
structure VerificationResult where
  isValid : Bool
  errors : Option (List String)
  warnings : List String
deriving DecidableEq, Repr

mutual

/-- JS string conversion (template-literal interpolation) of a JSON value.
Only the string case is reachable in the verified code paths (port names of
schema-valid descriptors); the other constructors follow JS `String()`. -/
def jsToString : Json → String
  | .null => "null"
  | .bool b => if b then "true" else "false"
  | .num n => toString n
  | .str s => s
  | .arr xs => jsToStringElems xs
  | .obj _ => "[object Object]"

/-- JS `Array.prototype.toString`: elements joined with ",", with `null`
elements rendered as the empty string. -/
def jsToStringElems : List Json → String
  | [] => ""
  | [x] => jsToStringElem x
  | x :: xs => jsToStringElem x ++ "," ++ jsToStringElems xs

/-- One element of a JS array-to-string join. -/
def jsToStringElem : Json → String
  | .null => ""
  | j => jsToString j

end

/-- The label the linter uses for an output port:
``port.name || `#${index}` `` — the port's `name` when truthy, otherwise
'#' followed by the **0-based** `forEach` index. -/
def portLabel (port : Json) (index : Nat) : String :=
  match getKey port "name" with
  | some v => if jsTruthy v then jsToString v else "#" ++ toString index
  | none => "#" ++ toString index

/-- The `forEach` body of `checkBestPractices` over
`interfaceComponents.outputPorts`: Reference entries (`'$ref' in port`) are
skipped; otherwise a falsy `description` and a falsy `promises` each warn. -/
def portWarnings (index : Nat) : List Json → List String
  | [] => []
  | port :: rest =>
    (if hasKey port "$ref" then []
     else
       (if truthyOpt (getKey port "description") then []
        else ["Missing description for output port " ++ portLabel port index]) ++
       (if truthyOpt (getKey port "promises") then []
        else ["Missing promises in output port " ++ portLabel port index])) ++
    portWarnings (index + 1) rest

/-- JS `x.length === 0` for the values the linter meets (arrays; a string's
`length` would also compare). -/
def jsLengthZero : Json → Bool
  | .arr [] => true
  | .str "" => true
  | _ => false

/-- `checkBestPractices` from verify.ts, applied to the parsed descriptor
(`result.data`). The descriptor is schema-valid at every call site, so
`info` is an object and `interfaceComponents.outputPorts` an array; the
`getD` defaults are unreachable there. -/
def checkBestPractices (descriptor : Json) : List String :=
  let info := (getKey descriptor "info").getD .null
  let outputPorts :=
    match getKey ((getKey descriptor "interfaceComponents").getD .null) "outputPorts" with
    | some (.arr xs) => xs
    | _ => []
  let contactPoints := getKey info "contactPoints"
  (if truthyOpt (getKey info "description") then []
   else ["Missing data product description in info"]) ++
  portWarnings 0 outputPorts ++
  (if !truthyOpt contactPoints ||
      (match contactPoints with | some v => jsLengthZero v | none => false) then
    ["No contact points defined for the data product"]
   else [])

/-- `verifyDataProduct` from verify.ts (`options.strict` as a `Bool`): on
success the linter runs only under `strict` and on the zod-parsed data; on
failure the formatted errors are returned with no warnings. -/
def verifyDataProduct (j : Json) (strict : Bool) : VerificationResult :=
  match validateDataProductDescriptor j with
  | .ok parsed =>
    { isValid := true, errors := none,
      warnings := if strict then checkBestPractices parsed else [] }
  | .error msgs =>
    { isValid := false, errors := some msgs, warnings := [] }

/-- The file-system interface `verifyFile` consumes (`fs.existsSync`,
`fs.readFileSync`); modelled as an abstract total environment since the
Node.js file system is outside the repository. -/
structure FsModel where
  existsSync : String → Bool
  readFileSync : String → String

/-- `verifyFile` from verify.ts, parameterised over the file system, the
JSON parser (`JSON.parse`, a JS built-in, abstracted as a total function
returning either a value or the parser's error message) and the verifier
stage. The source's surrounding try/catch (`InternalError`) never fires in
this total model. -/
def verifyFileWith (fs : FsModel) (jsonParse : String → Except String Json)
    (verifier : Json → Bool → VerificationResult) (filePath : String)
    (strict : Bool) : VerificationResult × Option Json :=
  if fs.existsSync filePath then
    match jsonParse (fs.readFileSync filePath) with
    | .error m =>
      ({ isValid := false, errors := some ["Invalid JSON format: " ++ m],
         warnings := [] }, none)
    | .ok data =>
      let result := verifier data strict
      (result, if result.isValid then some data else none)
  else
    ({ isValid := false, errors := some ["File not found: " ++ filePath],
       warnings := [] }, none)

/-- `verifyFile` with the concrete verifier stage of the source. -/
def verifyFile (fs : FsModel) (jsonParse : String → Except String Json)
    (filePath : String) (strict : Bool) : VerificationResult × Option Json :=
  verifyFileWith fs jsonParse verifyDataProduct filePath strict

-- ===============================================================
-- schemaUtils.ts: processSchema.
-- ===============================================================

/-- Does the value satisfy
`typeof x === 'object' && x !== null && '$ref' in x`? (Arrays have no
"$ref" property.) -/
def hasRefProp : Json → Bool
  | .obj l => (jlookup "$ref" l).isSome
  | _ => false

/-- `x.$ref === '#/$defs/reference'` (strict string comparison; any
non-string `$ref` value compares unequal). -/
def refIsSentinel : Json → Bool
  | .obj l =>
    match jlookup "$ref" l with
    | some (.str s) => decide (s = "#/$defs/reference")
    | _ => false
  | _ => false

/-- `x.$ref` of a value for which `hasRefProp` holds (the `.null` default is
unreachable under that guard). -/
def refTarget : Json → Json
  | .obj l => (jlookup "$ref" l).getD .null
  | _ => .null

/-- `typeof v === 'object' && v !== null` (the guard of the recursive
descent in `processSchema`'s entry loop). -/
def isObjOrArr : Json → Bool
  | .arr _ => true
  | .obj _ => true
  | _ => false

mutual

/-- `processSchema` from schemaUtils.ts: non-objects pass through; arrays
recurse elementwise; an object whose `oneOf` is a 2-element array with both
elements `$ref`-carrying objects is replaced by `{ $ref: chosen }`, where
`chosen` is the second element's `$ref` when the first's is the literal
`#/$defs/reference` and the first element's `$ref` otherwise; any other
object is rebuilt with object/array-valued entries processed recursively. -/
def processSchema : Json → Json
  | .null => .null
  | .bool b => .bool b
  | .num n => .num n
  | .str s => .str s
  | .arr xs => .arr (processSchemaList xs)
  | .obj kvs =>
    match jlookup "oneOf" kvs with
    | some (.arr [a, b]) =>
      if hasRefProp a && hasRefProp b then
        .obj [("$ref", if refIsSentinel a then refTarget b else refTarget a)]
      else .obj (processSchemaEntries kvs)
    | _ => .obj (processSchemaEntries kvs)

/-- `schema.map((item) => processSchema(item))`. -/
def processSchemaList : List Json → List Json
  | [] => []
  | x :: xs => processSchema x :: processSchemaList xs

/-- The `Object.entries` loop of `processSchema`: object/array values are
processed recursively, primitives kept unchanged. -/
def processSchemaEntries : List (String × Json) → List (String × Json)
  | [] => []
  | (k, v) :: rest =>
    (k, if isObjOrArr v then processSchema v else v) :: processSchemaEntries rest

end

-- ===============================================================
-- Concrete fixtures.
-- ===============================================================

/-- The minimal valid descriptor of the specification's §8. -/
def minimalDescriptor : Json :=
  .obj [("dataProductDescriptor", .str "1.0.0"),
        ("info", .obj [("fullyQualifiedName", .str "urn:dpds:org.example:dataproducts:sample:1"),
                       ("name", .str "sample"),
                       ("version", .str "1.0.0"),
                       ("domain", .str "org.example"),
                       ("owner", .obj [("id", .str "o1")])]),
        ("interfaceComponents", .obj [("outputPorts", .arr [])])]

example : (verifyDataProduct minimalDescriptor false).isValid = true := by decide
example : (verifyDataProduct minimalDescriptor true).warnings =
    ["Missing data product description in info",
     "No contact points defined for the data product"] := by decide
example : processSchema (.obj [("oneOf", .arr [.obj [("$ref", .str "#/$defs/reference")],
    .obj [("$ref", .str "#/$defs/inputPort")]])]) =
    .obj [("$ref", .str "#/$defs/inputPort")] := by decide

-- ===============================================================
-- Claim theorems: C3, C7, C9 (concrete / validator claims).
-- ===============================================================

/-- C3: the minimal descriptor
`{dataProductDescriptor:"1.0.0", info:{fullyQualifiedName:"urn:dpds:org.example:dataproducts:sample:1",
name:"sample", version:"1.0.0", domain:"org.example", owner:{id:"o1"}},
interfaceComponents:{outputPorts:[]}}` passes validation: `verifyDataProduct`
returns `isValid = true` and `errors = null` (the empty `outputPorts` array
satisfies the required field). -/
theorem minimalDescriptor_validates :
    (verifyDataProduct minimalDescriptor false).isValid = true ∧
    (verifyDataProduct minimalDescriptor false).errors = none ∧
    (verifyDataProduct minimalDescriptor true).isValid = true ∧
    (verifyDataProduct minimalDescriptor true).errors = none := by
  decide

/-- C7: linter gating — verifying the minimal valid descriptor with
`strict = true` yields warnings including "Missing data product description
in info" and "No contact points defined for the data product", while with
`strict = false` the warnings are empty because the linter is not invoked. -/
theorem linter_gating_minimalDescriptor :
    "Missing data product description in info" ∈
      (verifyDataProduct minimalDescriptor true).warnings ∧
    "No contact points defined for the data product" ∈
      (verifyDataProduct minimalDescriptor true).warnings ∧
    (verifyDataProduct minimalDescriptor false).warnings = [] := by
  decide

/-- C9: every format validator (UUID, FQN, alphanumeric, domain, camelCase,
semantic version, URI, URI-reference) is a pure predicate on an optional
string that returns `true` on an absent (`undefined`) argument and otherwise
returns exactly the result of matching the argument against its fixed
regular expression (the corresponding `…Match` function). -/
theorem format_validators_spec :
    (isValidUuid none = true ∧ ∀ s, isValidUuid (some s) = uuidMatch s.data) ∧
    (isValidFqn none = true ∧ ∀ s, isValidFqn (some s) = fqnMatch s.data) ∧
    (isValidAlphanumeric none = true ∧
      ∀ s, isValidAlphanumeric (some s) = alphanumericMatch s.data) ∧
    (isValidDomain none = true ∧ ∀ s, isValidDomain (some s) = domainMatch s.data) ∧
    (isValidCamelCase none = true ∧
      ∀ s, isValidCamelCase (some s) = camelCaseMatch s.data) ∧
    (isValidVersion none = true ∧ ∀ s, isValidVersion (some s) = versionMatch s.data) ∧
    (isValidUri none = true ∧ ∀ s, isValidUri (some s) = uriMatch s.data) ∧
    (isValidUriReference none = true ∧
      ∀ s, isValidUriReference (some s) = uriReferenceMatch s.data) := by
  refine ⟨⟨rfl, fun s => rfl⟩, ⟨rfl, fun s => rfl⟩, ⟨rfl, fun s => rfl⟩,
    ⟨rfl, fun s => rfl⟩, ⟨rfl, fun s => rfl⟩, ⟨rfl, fun s => rfl⟩,
    ⟨rfl, fun s => rfl⟩, ⟨rfl, fun s => rfl⟩⟩

-- ===============================================================
-- C10: result-shape invariant of the verification entry points.
-- ===============================================================

/-- C10: for both entry points (`verifyDataProduct` and `verifyFile`) the
returned `VerificationResult` satisfies `isValid = true` exactly when
`errors = none`, and `warnings` is empty whenever `isValid = false` or the
strict option is unset. -/
theorem verification_result_invariant :
    (∀ (j : Json) (strict : Bool),
      ((verifyDataProduct j strict).isValid = true ↔
        (verifyDataProduct j strict).errors = none) ∧
      ((verifyDataProduct j strict).isValid = false →
        (verifyDataProduct j strict).warnings = []) ∧
      (strict = false → (verifyDataProduct j strict).warnings = [])) ∧
    (∀ (fs : FsModel) (jsonParse : String → Except String Json)
        (path : String) (strict : Bool),
      ((verifyFile fs jsonParse path strict).1.isValid = true ↔
        (verifyFile fs jsonParse path strict).1.errors = none) ∧
      ((verifyFile fs jsonParse path strict).1.isValid = false →
        (verifyFile fs jsonParse path strict).1.warnings = []) ∧
      (strict = false → (verifyFile fs jsonParse path strict).1.warnings = [])) := by
  have hdp : ∀ (j : Json) (strict : Bool),
      ((verifyDataProduct j strict).isValid = true ↔
        (verifyDataProduct j strict).errors = none) ∧
      ((verifyDataProduct j strict).isValid = false →
        (verifyDataProduct j strict).warnings = []) ∧
      (strict = false → (verifyDataProduct j strict).warnings = []) := by
    intro j strict
    unfold verifyDataProduct
    cases validateDataProductDescriptor j <;> rcases strict <;> simp
  refine ⟨hdp, ?_⟩
  intro fs jsonParse path strict
  unfold verifyFile verifyFileWith
  by_cases hex : fs.existsSync path
  · simp only [hex, if_true]
    cases hp : jsonParse (fs.readFileSync path) with
    | error m => simp
    | ok d => simpa using hdp d strict
  · simp [hex]

/-- Witness for C10 at concrete inputs. -/
theorem verification_result_invariant_witness :
    (verifyDataProduct minimalDescriptor false).warnings = [] ∧
    (verifyFile ⟨fun _ => false, fun _ => ""⟩ (fun _ => .error "eof") "a.json" true).1.warnings = [] := by
  exact ⟨(verification_result_invariant.1 minimalDescriptor false).2.2 rfl,
    (verification_result_invariant.2 ⟨fun _ => false, fun _ => ""⟩
      (fun _ => .error "eof") "a.json" true).2.1 rfl⟩

-- ===============================================================
-- C4: pipeline stage ordering and short-circuiting.
-- ===============================================================

/-- C4: the file pipeline stages are strictly ordered and short-circuit.
For a nonexistent path the result is the file-not-found failure (message
embedding the path) for **every** parser and verifier stage (so neither
runs); for content that fails to parse, the result is the parse-error
failure for **every** verifier stage (so validation never runs); for
well-formed JSON failing schema validation, the result carries exactly the
validation errors and an empty warnings list regardless of `strict`. -/
theorem verifyFile_pipeline_ordering :
    (∀ (fs : FsModel) (jsonParse : String → Except String Json)
        (verifier : Json → Bool → VerificationResult) (path : String) (strict : Bool),
      fs.existsSync path = false →
      verifyFileWith fs jsonParse verifier path strict =
        ({ isValid := false, errors := some ["File not found: " ++ path],
           warnings := [] }, none)) ∧
    (∀ (fs : FsModel) (jsonParse : String → Except String Json)
        (verifier : Json → Bool → VerificationResult) (path : String)
        (strict : Bool) (m : String),
      fs.existsSync path = true →
      jsonParse (fs.readFileSync path) = .error m →
      verifyFileWith fs jsonParse verifier path strict =
        ({ isValid := false, errors := some ["Invalid JSON format: " ++ m],
           warnings := [] }, none)) ∧
    (∀ (fs : FsModel) (jsonParse : String → Except String Json) (path : String)
        (strict : Bool) (d : Json) (msgs : List String),
      fs.existsSync path = true →
      jsonParse (fs.readFileSync path) = .ok d →
      validateDataProductDescriptor d = .error msgs →
      verifyFile fs jsonParse path strict =
        ({ isValid := false, errors := some msgs, warnings := [] }, none)) := by
  refine ⟨?_, ?_, ?_⟩
  · intro fs jsonParse verifier path strict hex
    simp [verifyFileWith, hex]
  · intro fs jsonParse verifier path strict m hex hp
    simp [verifyFileWith, hex, hp]
  · intro fs jsonParse path strict d msgs hex hp hv
    simp [verifyFile, verifyFileWith, hex, hp, verifyDataProduct, hv]

/-- Witness for C4: a missing file short-circuits for a concrete file system,
parser and verifier. -/
theorem verifyFile_pipeline_ordering_witness :
    verifyFileWith ⟨fun _ => false, fun _ => ""⟩ (fun _ => .error "eof")
        verifyDataProduct "missing.json" true =
      ({ isValid := false, errors := some ["File not found: missing.json"],
         warnings := [] }, none) := by
  exact verifyFile_pipeline_ordering.1 ⟨fun _ => false, fun _ => ""⟩
    (fun _ => .error "eof") verifyDataProduct "missing.json" true rfl

-- ===============================================================
-- C5: the normalizer's collapse rule.
-- ===============================================================

/-- C5: `processSchema` collapses exactly the 2-ref `oneOf` pattern. If an
object's `oneOf` is a 2-element array whose both elements carry `$ref`, the
whole object becomes `{ $ref: chosen }` (all sibling keys discarded), with
`chosen` the second element's `$ref` when the first element's `$ref` is the
sentinel `#/$defs/reference` and the first element's `$ref` otherwise. A
`oneOf` of any other length, or one with a `$ref`-less branch, keeps its
keys with the children recursively normalized. In particular
`{oneOf:[{$ref:"#/$defs/reference"},{$ref:"#/$defs/inputPort"}]}` normalizes
to `{$ref:"#/$defs/inputPort"}`. -/
theorem processSchema_collapse_rule :
    (∀ (kvs : List (String × Json)) (a b : Json),
      jlookup "oneOf" kvs = some (.arr [a, b]) →
      hasRefProp a = true → hasRefProp b = true →
      processSchema (.obj kvs) =
        .obj [("$ref", if refIsSentinel a then refTarget b else refTarget a)]) ∧
    (∀ (kvs : List (String × Json)) (xs : List Json),
      jlookup "oneOf" kvs = some (.arr xs) → xs.length ≠ 2 →
      processSchema (.obj kvs) = .obj (processSchemaEntries kvs)) ∧
    (∀ (kvs : List (String × Json)) (a b : Json),
      jlookup "oneOf" kvs = some (.arr [a, b]) →
      (hasRefProp a = false ∨ hasRefProp b = false) →
      processSchema (.obj kvs) = .obj (processSchemaEntries kvs)) ∧
    processSchema (.obj [("oneOf", .arr [.obj [("$ref", .str "#/$defs/reference")],
        .obj [("$ref", .str "#/$defs/inputPort")]])]) =
      .obj [("$ref", .str "#/$defs/inputPort")] := by
  refine ⟨?_, ?_, ?_, by decide⟩
  · intro kvs a b h1 h2 h3
    rw [processSchema, h1]
    simp [h2, h3]
  · intro kvs xs h1 h2
    rw [processSchema, h1]
    match xs, h2 with
    | [], _ => rfl
    | [x], _ => rfl
    | [x, y], h2 => exact absurd rfl h2
    | x :: y :: z :: rest, _ => rfl
  · intro kvs a b h1 h2
    rw [processSchema, h1]
    rcases h2 with h2 | h2 <;> simp [h2]

/-- Witness for C5: the collapse equation applied at the concrete
sentinel/inputPort pair. -/
theorem processSchema_collapse_rule_witness :
    processSchema (.obj [("x", .num 1),
        ("oneOf", .arr [.obj [("$ref", .str "#/$defs/reference")],
                        .obj [("$ref", .str "#/$defs/outputPort")]])]) =
      .obj [("$ref", .str "#/$defs/outputPort")] := by
  have h := processSchema_collapse_rule.1
    [("x", .num 1),
     ("oneOf", .arr [.obj [("$ref", .str "#/$defs/reference")],
                     .obj [("$ref", .str "#/$defs/outputPort")]])]
    (.obj [("$ref", .str "#/$defs/reference")])
    (.obj [("$ref", .str "#/$defs/outputPort")])
    (by decide) (by decide) (by decide)
  simpa using h

-- ===============================================================
-- C6: the normalizer is *not* idempotent on all JSON trees.
-- ===============================================================

/-- A 2-element `oneOf` whose second branch is itself a collapsible
2-ref `oneOf` (and therefore gains a `$ref` key only after one pass). -/
def nestedOneOf : Json :=
  .obj [("oneOf", .arr [.obj [("$ref", .str "x")],
        .obj [("oneOf", .arr [.obj [("$ref", .str "a")],
                              .obj [("$ref", .str "b")]])]])]

/-- C6 counterexample: `processSchema` is **not** idempotent on every
JSON-compatible tree. On `nestedOneOf` the first pass collapses only the
inner `oneOf` (the outer one has a `$ref`-less branch), after which the
outer object matches the 2-ref pattern, so the second pass collapses it to
`{$ref:"x"}`. -/
theorem processSchema_not_idempotent :
    processSchema (processSchema nestedOneOf) ≠ processSchema nestedOneOf := by
  decide

-- ===============================================================
-- C6 amended: idempotence on trees whose 2-element `oneOf`s are already
-- collapsible with scalar `$ref` targets.
-- ===============================================================

/-- An object carrying a `$ref` whose value is a scalar (neither object nor
array) — the shape of a JSON-Schema reference branch. -/
def hasScalarRef : Json → Bool
  | .obj l =>
    match jlookup "$ref" l with
    | some v => !isObjOrArr v
    | none => false
  | _ => false

mutual

/-- Trees on which the collapse rule interacts benignly with recursion:
every `oneOf` key holding a 2-element array has both elements
`$ref`-carrying objects with scalar `$ref` values (the shape the rule was
written for — JSON-Schema `$ref` targets are strings). -/
def oneOfSafe : Json → Bool
  | .obj kvs =>
    (match jlookup "oneOf" kvs with
     | some (.arr [a, b]) => hasScalarRef a && hasScalarRef b
     | _ => true) && oneOfSafeEntries kvs
  | .arr xs => oneOfSafeList xs
  | _ => true

def oneOfSafeList : List Json → Bool
  | [] => true
  | x :: xs => oneOfSafe x && oneOfSafeList xs

def oneOfSafeEntries : List (String × Json) → Bool
  | [] => true
  | (_, v) :: rest => oneOfSafe v && oneOfSafeEntries rest

end

/-- The collapse guard of `processSchema`'s object case as a predicate. -/
def collapseGuard (kvs : List (String × Json)) : Bool :=
  match jlookup "oneOf" kvs with
  | some (.arr [a, b]) => hasRefProp a && hasRefProp b
  | _ => false

/-- The `$ref` chosen by the collapse (meaningful under `collapseGuard`). -/
def collapseChosen (kvs : List (String × Json)) : Json :=
  match jlookup "oneOf" kvs with
  | some (.arr [a, b]) => if refIsSentinel a then refTarget b else refTarget a
  | _ => .null

theorem processSchema_obj_eq (kvs : List (String × Json)) :
    processSchema (.obj kvs) =
      if collapseGuard kvs then .obj [("$ref", collapseChosen kvs)]
      else .obj (processSchemaEntries kvs) := by
  rw [processSchema]
  unfold collapseGuard collapseChosen
  cases h : jlookup "oneOf" kvs with
  | none => simp
  | some w =>
    cases w with
    | arr xs =>
      match xs with
      | [] => simp
      | [x] => simp
      | [x, y] =>
        by_cases hr : hasRefProp x && hasRefProp y <;> simp [hr]
      | x :: y :: z :: rest => simp
    | null => simp
    | bool b => simp
    | num n => simp
    | str s => simp
    | obj l => simp

theorem processSchemaList_eq_map (xs : List Json) :
    processSchemaList xs = xs.map processSchema := by
  induction xs with
  | nil => rfl
  | cons x xs ih => rw [processSchemaList, ih, List.map_cons]

theorem processSchemaEntries_eq_map (kvs : List (String × Json)) :
    processSchemaEntries kvs =
      kvs.map (fun kv => (kv.1, if isObjOrArr kv.2 then processSchema kv.2 else kv.2)) := by
  induction kvs with
  | nil => rfl
  | cons kv rest ih =>
    obtain ⟨k, v⟩ := kv
    rw [processSchemaEntries, ih, List.map_cons]

theorem processSchema_scalar (j : Json) (h : isObjOrArr j = false) :
    processSchema j = j := by
  cases j <;> first | rfl | (exact absurd h (by simp [isObjOrArr]))

theorem isObjOrArr_processSchema (j : Json) :
    isObjOrArr (processSchema j) = isObjOrArr j := by
  cases j with
  | arr xs => rfl
  | obj kvs => rw [processSchema_obj_eq]; split <;> rfl
  | null => rfl
  | bool b => rfl
  | num n => rfl
  | str s => rfl

theorem jlookup_processSchemaEntries (k : String) (kvs : List (String × Json)) :
    jlookup k (processSchemaEntries kvs) =
      (jlookup k kvs).map (fun v => if isObjOrArr v then processSchema v else v) := by
  induction kvs with
  | nil => rfl
  | cons kv rest ih =>
    obtain ⟨k', v⟩ := kv
    rw [processSchemaEntries, jlookup, jlookup]
    by_cases hk : k' = k <;> simp [hk, ih]

theorem oneOfSafeEntries_mem {kvs : List (String × Json)} {k : String} {v : Json}
    (hs : oneOfSafeEntries kvs = true) (hm : (k, v) ∈ kvs) : oneOfSafe v = true := by
  induction kvs with
  | nil => cases hm
  | cons kv rest ih =>
    obtain ⟨k', v'⟩ := kv
    rw [oneOfSafeEntries, Bool.and_eq_true] at hs
    rcases List.mem_cons.mp hm with h | h
    · cases h; exact hs.1
    · exact ih hs.2 h

theorem oneOfSafeList_mem {xs : List Json} {x : Json}
    (hs : oneOfSafeList xs = true) (hm : x ∈ xs) : oneOfSafe x = true := by
  induction xs with
  | nil => cases hm
  | cons y rest ih =>
    rw [oneOfSafeList, Bool.and_eq_true] at hs
    rcases List.mem_cons.mp hm with h | h
    · cases h; exact hs.1
    · exact ih hs.2 h

theorem json_sizeOf_pos (j : Json) : 0 < sizeOf j := by
  cases j <;> simp_arith

theorem sizeOf_mem_list {x : Json} {xs : List Json} (h : x ∈ xs) :
    sizeOf x < sizeOf (Json.arr xs) := by
  have := List.sizeOf_lt_of_mem h
  simp only [Json.arr.sizeOf_spec]
  omega

theorem sizeOf_mem_entries {k : String} {v : Json} {kvs : List (String × Json)}
    (h : (k, v) ∈ kvs) : sizeOf v < sizeOf (Json.obj kvs) := by
  have h1 := List.sizeOf_lt_of_mem h
  have h2 : sizeOf (k, v) = 1 + sizeOf k + sizeOf v := by simp
  simp only [Json.obj.sizeOf_spec]
  omega

/-- A `$ref`-with-scalar-target object both passes the collapse's `$ref`
test and has a non-object, non-array `$ref` value. -/
theorem hasScalarRef_facts {a : Json} (h : hasScalarRef a = true) :
    hasRefProp a = true ∧ isObjOrArr (refTarget a) = false := by
  match a with
  | .obj l =>
    rw [hasScalarRef] at h
    cases h2 : jlookup "$ref" l with
    | none => rw [h2] at h; cases h
    | some v =>
      rw [h2] at h
      refine ⟨?_, ?_⟩
      · rw [hasRefProp, h2]; rfl
      · rw [refTarget, h2]; simpa using h
  | .null => cases h
  | .bool b => cases h
  | .num n => cases h
  | .str s => cases h
  | .arr xs => cases h

theorem processSchema_obj_is_obj (l : List (String × Json)) :
    ∃ l2, processSchema (.obj l) = .obj l2 := by
  rw [processSchema_obj_eq]
  split
  · exact ⟨_, rfl⟩
  · exact ⟨_, rfl⟩

/-- The bounded-size version of the idempotence statement, proved by
induction on the size bound. -/
theorem processSchema_pp_aux (n : Nat) :
    ∀ t : Json, sizeOf t ≤ n → oneOfSafe t = true →
      processSchema (processSchema t) = processSchema t := by
  induction n with
  | zero => intro t h _; exact absurd h (by have := json_sizeOf_pos t; omega)
  | succ n ih =>
    intro t hsz hsafe
    match t with
    | .null | .bool _ | .num _ | .str _ => rfl
    | .arr xs =>
      rw [processSchema, processSchema]
      rw [processSchemaList_eq_map, processSchemaList_eq_map, List.map_map]
      congr 1
      apply List.map_congr_left
      intro x hx
      have hx1 : sizeOf x ≤ n := by have := sizeOf_mem_list hx; omega
      have hx2 : oneOfSafe x = true := by
        rw [oneOfSafe] at hsafe
        exact oneOfSafeList_mem hsafe hx
      exact ih x hx1 hx2
    | .obj kvs =>
      rw [oneOfSafe, Bool.and_eq_true] at hsafe
      obtain ⟨hsafe1, hsafeE⟩ := hsafe
      have hptw : ∀ (k : String) (v : Json), (k, v) ∈ kvs →
          processSchema (processSchema v) = processSchema v := by
        intro k v hm
        have h1 : sizeOf v ≤ n := by have := sizeOf_mem_entries hm; omega
        exact ih v h1 (oneOfSafeEntries_mem hsafeE hm)
      by_cases hg : collapseGuard kvs = true
      · -- collapse case: the chosen `$ref` target is scalar, so the
        -- collapsed node is a fixed point.
        have hg' := hg
        unfold collapseGuard at hg'
        cases h1 : jlookup "oneOf" kvs with
        | none => rw [h1] at hg'; cases hg'
        | some w =>
          rw [h1] at hg' hsafe1
          cases w with
          | null => exact absurd hg' (by simp)
          | bool b0 => exact absurd hg' (by simp)
          | num m0 => exact absurd hg' (by simp)
          | str s0 => exact absurd hg' (by simp)
          | obj l0 => exact absurd hg' (by simp)
          | arr xs =>
            rcases xs with _ | ⟨a, xs⟩
            · exact absurd hg' (by simp)
            rcases xs with _ | ⟨b, xs⟩
            · exact absurd hg' (by simp)
            rcases xs with _ | ⟨c, xs⟩
            swap
            · exact absurd hg' (by simp)
            have hsafe2 : (hasScalarRef a && hasScalarRef b) = true := hsafe1
            rw [Bool.and_eq_true] at hsafe2
            have haT := (hasScalarRef_facts hsafe2.1).2
            have hbT := (hasScalarRef_facts hsafe2.2).2
            have hcs : isObjOrArr (collapseChosen kvs) = false := by
              unfold collapseChosen
              rw [h1]
              show isObjOrArr (if refIsSentinel a then refTarget b else refTarget a) = false
              split <;> assumption
            have hcollapse : processSchema (.obj kvs) = .obj [("$ref", collapseChosen kvs)] := by
              rw [processSchema_obj_eq, if_pos hg]
            rw [hcollapse, processSchema_obj_eq, if_neg (by simp [collapseGuard, jlookup])]
            rw [processSchemaEntries, processSchemaEntries, hcs]
            simp
      · -- generic case: rebuild-and-recurse; under safety no new collapse
        -- pattern can appear after one pass.
        have hg2 : collapseGuard (processSchemaEntries kvs) = false := by
          unfold collapseGuard
          rw [jlookup_processSchemaEntries]
          cases h1 : jlookup "oneOf" kvs with
          | none => rfl
          | some w =>
            rw [h1] at hsafe1
            rcases w with _ | b0 | m0 | s0 | xs | l0
            · simp [isObjOrArr]
            · simp [isObjOrArr]
            · simp [isObjOrArr]
            · simp [isObjOrArr]
            · rcases xs with _ | ⟨x, xs⟩
              · simp [isObjOrArr, processSchema, processSchemaList]
              rcases xs with _ | ⟨y, xs⟩
              · simp [isObjOrArr, processSchema, processSchemaList]
              rcases xs with _ | ⟨z, xs⟩
              · -- a 2-element `oneOf`: safety forces both branches to carry
                -- `$ref`, contradicting the failed collapse guard.
                have hsafe2 : (hasScalarRef x && hasScalarRef y) = true := hsafe1
                rw [Bool.and_eq_true] at hsafe2
                have hxr := (hasScalarRef_facts hsafe2.1).1
                have hyr := (hasScalarRef_facts hsafe2.2).1
                exact absurd (show collapseGuard kvs = true by
                  unfold collapseGuard; rw [h1]; simp [hxr, hyr]) hg
              · simp [isObjOrArr, processSchema, processSchemaList]
            · obtain ⟨l2, hl2⟩ := processSchema_obj_is_obj l0
              simp [isObjOrArr, hl2]
        rw [processSchema_obj_eq kvs, if_neg hg]
        rw [processSchema_obj_eq, if_neg (by rw [hg2]; simp)]
        congr 1
        rw [processSchemaEntries_eq_map kvs, processSchemaEntries_eq_map, List.map_map]
        apply List.map_congr_left
        intro kv hm
        obtain ⟨k, v⟩ := kv
        by_cases hv : isObjOrArr v = true
        · simp only [Function.comp, hv, if_true, isObjOrArr_processSchema,
            Prod.mk.injEq, true_and]
          exact hptw k v hm
        · rw [Bool.not_eq_true] at hv
          simp [Function.comp, hv]

/-- C6 amended: `processSchema` is **not** idempotent on all JSON-compatible
trees (see `processSchema_not_idempotent`), but it is idempotent on every
tree in which each `oneOf` key holding a 2-element array has both elements
`$ref`-carrying objects with scalar `$ref` values — in particular on
JSON-Schema documents whose 2-branch unions are unions of references with
string targets, the shape the normalizer is applied to. A collapsible
`oneOf` nested as a branch of another 2-element `oneOf` (or a non-string
`$ref` target) defeats idempotence, as the inner collapse creates a new
match on the second pass. -/
theorem processSchema_idempotent_of_safe (t : Json) (h : oneOfSafe t = true) :
    processSchema (processSchema t) = processSchema t :=
  processSchema_pp_aux (sizeOf t) t le_rfl h

/-- Witness for the amended C6 theorem at a concrete safe tree. -/
theorem processSchema_idempotent_of_safe_witness :
    processSchema (processSchema (.obj [("type", .str "object"),
        ("properties", .obj [("port", .obj [("oneOf",
          .arr [.obj [("$ref", .str "#/$defs/reference")],
                .obj [("$ref", .str "#/$defs/inputPort")]])])])])) =
      processSchema (.obj [("type", .str "object"),
        ("properties", .obj [("port", .obj [("oneOf",
          .arr [.obj [("$ref", .str "#/$defs/reference")],
                .obj [("$ref", .str "#/$defs/inputPort")]])])])]) :=
  processSchema_idempotent_of_safe _ (by decide)

-- ===============================================================
-- C8: shape of the emitted error list.
-- ===============================================================

/-- A failed parse always carries at least one issue (as in zod, where every
failure path records an issue and a failed union concatenates the non-empty
issue lists of its branches). -/
theorem zparseF_error_ne_nil :
    ∀ (f : Nat) (s : ZSchema) (v : Option Json) (es : List ZIssue),
      zparseF f s v = .error es → es ≠ [] := by
  intro f
  induction f with
  | zero =>
    intro s v es h
    rw [zparseF] at h
    cases h
    simp
  | succ f ih =>
    intro s v es h
    match s, v with
    | .str, none => cases h; simp
    | .str, some (.str t) => cases h
    | .str, some .null | .str, some (.bool _) | .str, some (.num _)
    | .str, some (.arr _) | .str, some (.obj _) => cases h; simp
    | .strRefine test msg, none => cases h; simp
    | .strRefine test msg, some (.str t) =>
      rw [zparseF] at h
      split at h
      · cases h
      · cases h; simp
    | .strRefine _ _, some .null | .strRefine _ _, some (.bool _)
    | .strRefine _ _, some (.num _) | .strRefine _ _, some (.arr _)
    | .strRefine _ _, some (.obj _) => cases h; simp
    | .optStrRefine test msg, none =>
      rw [zparseF] at h
      split at h
      · cases h
      · cases h; simp
    | .optStrRefine test msg, some (.str t) =>
      rw [zparseF] at h
      split at h
      · cases h
      · cases h; simp
    | .optStrRefine _ _, some .null | .optStrRefine _ _, some (.bool _)
    | .optStrRefine _ _, some (.num _) | .optStrRefine _ _, some (.arr _)
    | .optStrRefine _ _, some (.obj _) => cases h; simp
    | .num, none => cases h; simp
    | .num, some (.num n) => cases h
    | .num, some .null | .num, some (.bool _) | .num, some (.str _)
    | .num, some (.arr _) | .num, some (.obj _) => cases h; simp
    | .any, v => cases h
    | .opt s', none => cases h
    | .opt s', some j =>
      rw [zparseF] at h
      exact ih s' (some j) es h
    | .obj shape pass, none => cases h; simp
    | .obj shape pass, some (.obj kvs) =>
      rw [zparseF] at h
      rcases h2 : (parseFields (zparseF f) kvs shape).1 with _ | ⟨e, es'⟩
      · rw [h2] at h; cases h
      · rw [h2] at h; cases h; simp
    | .obj _ _, some .null | .obj _ _, some (.bool _) | .obj _ _, some (.num _)
    | .obj _ _, some (.str _) | .obj _ _, some (.arr _) => cases h; simp
    | .arr e, none => cases h; simp
    | .arr e, some (.arr xs) =>
      rw [zparseF] at h
      rcases h2 : (parseItems (fun x => zparseF f e (some x)) 0 xs).1 with _ | ⟨e0, es'⟩
      · rw [h2] at h; cases h
      · rw [h2] at h; cases h; simp
    | .arr _, some .null | .arr _, some (.bool _) | .arr _, some (.num _)
    | .arr _, some (.str _) | .arr _, some (.obj _) => cases h; simp
    | .record e, none => cases h; simp
    | .record e, some (.obj kvs) =>
      rw [zparseF] at h
      rcases h2 : (parseRecordEntries (fun x => zparseF f e (some x)) kvs).1 with _ | ⟨e0, es'⟩
      · rw [h2] at h; cases h
      · rw [h2] at h; cases h; simp
    | .record _, some .null | .record _, some (.bool _) | .record _, some (.num _)
    | .record _, some (.str _) | .record _, some (.arr _) => cases h; simp
    | .union2 a b, v =>
      rw [zparseF] at h
      cases ha : zparseF f a v with
      | ok ra => rw [ha] at h; cases h
      | error ea =>
        rw [ha] at h
        cases hb : zparseF f b v with
        | ok rb => rw [hb] at h; cases h
        | error eb =>
          rw [hb] at h
          cases h
          have := ih a v ea ha
          simp [this]

/-- C8: whenever validation fails, the returned error list is non-empty and
is exactly the rendering of the path-qualified issues the parse actually
produced: each issue's path segments (object keys and decimal array
indices, as built by `zparseF`/`parseItems`) joined with dots and prefixed
to the issue's message by ": ", with the prefix omitted exactly for the
issues whose violation is rooted at the document root (empty path). -/
theorem validation_errors_shape :
    ∀ (j : Json) (msgs : List String),
      validateDataProductDescriptor j = .error msgs →
      msgs ≠ [] ∧
      ∃ issues : List ZIssue,
        zparseF parseFuel dataProductDescriptorSchema (some j) = .error issues ∧
        msgs = issues.map (fun e =>
          if e.1 = [] then e.2 else String.intercalate "." e.1 ++ ": " ++ e.2) := by
  intro j msgs h
  unfold validateDataProductDescriptor safeParse at h
  cases hz : zparseF parseFuel dataProductDescriptorSchema (some j) with
  | ok r => rw [hz] at h; cases h
  | error es =>
    rw [hz] at h
    cases h
    have hne := zparseF_error_ne_nil parseFuel dataProductDescriptorSchema (some j) es hz
    exact ⟨by simpa using hne, es, rfl, rfl⟩

/-- A descriptor whose only flaw is an empty object in `outputPorts`: its
violations sit below an array index, so the rendered errors exercise the
dotted path with a numeric segment. -/
def badPortDescriptor : Json :=
  .obj [("dataProductDescriptor", .str "1.0.0"),
        ("info", .obj [("fullyQualifiedName", .str "urn:dpds:org.example:dataproducts:sample:1"),
                       ("name", .str "sample"),
                       ("version", .str "1.0.0"),
                       ("domain", .str "org.example"),
                       ("owner", .obj [("id", .str "o1")])]),
        ("interfaceComponents", .obj [("outputPorts", .arr [.obj []])])]

/-- Witness for C8 at `badPortDescriptor`: the emitted strings are the
parser's three issues (port-branch `name`/`version` and reference-branch
`$ref`, all "Required" under the array index 0) rendered with dotted,
index-bearing path prefixes. -/
theorem validation_errors_shape_witness :
    (["interfaceComponents.outputPorts.0.name: Required",
      "interfaceComponents.outputPorts.0.version: Required",
      "interfaceComponents.outputPorts.0.$ref: Required"] : List String) ≠ [] ∧
    ∃ issues : List ZIssue,
      zparseF parseFuel dataProductDescriptorSchema (some badPortDescriptor) =
        .error issues ∧
      ["interfaceComponents.outputPorts.0.name: Required",
       "interfaceComponents.outputPorts.0.version: Required",
       "interfaceComponents.outputPorts.0.$ref: Required"] =
        issues.map (fun e =>
          if e.1 = [] then e.2 else String.intercalate "." e.1 ++ ": " ++ e.2) :=
  validation_errors_shape badPortDescriptor
    ["interfaceComponents.outputPorts.0.name: Required",
     "interfaceComponents.outputPorts.0.version: Required",
     "interfaceComponents.outputPorts.0.$ref: Required"] (by decide)

-- ===============================================================
-- C1: acceptance of the Promises / Expectations / Obligations fields.
-- ===============================================================

/-- Did `safeParse` succeed? (`result.success` of zod's `safeParse`.) -/
def zaccepts (s : ZSchema) (j : Json) : Bool :=
  match zparseF parseFuel s (some j) with
  | .ok _ => true
  | .error _ => false

mutual

/-- Nesting depth of a schema: an upper bound on the fuel `zparseF` consumes
(fuel decreases only on schema descent). -/
def zdepth : ZSchema → Nat
  | .str => 0
  | .strRefine _ _ => 0
  | .optStrRefine _ _ => 0
  | .num => 0
  | .any => 0
  | .opt s => zdepth s + 1
  | .arr s => zdepth s + 1
  | .record s => zdepth s + 1
  | .union2 a b => max (zdepth a) (zdepth b) + 1
  | .obj shape _ => zdepthShape shape + 1

def zdepthShape : List (String × ZSchema) → Nat
  | [] => 0
  | (_, s) :: rest => max (zdepth s) (zdepthShape rest)

end

theorem zdepth_le_of_mem_shape {shape : List (String × ZSchema)} {k : String}
    {s : ZSchema} (h : (k, s) ∈ shape) : zdepth s ≤ zdepthShape shape := by
  induction shape with
  | nil => cases h
  | cons kv rest ih =>
    obtain ⟨k', s'⟩ := kv
    rw [zdepthShape]
    rcases List.mem_cons.mp h with h | h
    · cases h; exact le_max_left _ _
    · exact le_trans (ih h) (le_max_right _ _)

theorem parseFields_congr {p q : ZSchema → Option Json → Except (List ZIssue) (Option Json)}
    (kvs : List (String × Json)) :
    ∀ shape : List (String × ZSchema),
      (∀ (k : String) (s : ZSchema), (k, s) ∈ shape → ∀ w, p s w = q s w) →
      parseFields p kvs shape = parseFields q kvs shape := by
  intro shape hpq
  induction shape with
  | nil => rfl
  | cons kv rest ih =>
    obtain ⟨k, fs⟩ := kv
    rw [parseFields, parseFields,
      ih (fun k' s' hm w => hpq k' s' (List.mem_cons_of_mem _ hm) w),
      hpq k fs (List.mem_cons_self _ _) (jlookup k kvs)]

theorem parseItems_congr {p q : Json → Except (List ZIssue) (Option Json)}
    (hpq : ∀ x, p x = q x) :
    ∀ (i : Nat) (xs : List Json), parseItems p i xs = parseItems q i xs := by
  intro i xs
  induction xs generalizing i with
  | nil => rfl
  | cons x rest ih => rw [parseItems, parseItems, ih, hpq]

theorem parseRecordEntries_congr {p q : Json → Except (List ZIssue) (Option Json)}
    (hpq : ∀ x, p x = q x) :
    ∀ kvs : List (String × Json), parseRecordEntries p kvs = parseRecordEntries q kvs := by
  intro kvs
  induction kvs with
  | nil => rfl
  | cons kv rest ih =>
    obtain ⟨k, v⟩ := kv
    rw [parseRecordEntries, parseRecordEntries, ih, hpq]

/-- Fuel irrelevance: any two fuels exceeding the schema's depth give the
same parse result (the fuel-exhaustion branch is unreachable). -/
theorem zparseF_fuel_irrel :
    ∀ (f1 f2 : Nat) (s : ZSchema) (v : Option Json),
      zdepth s < f1 → zdepth s < f2 → zparseF f1 s v = zparseF f2 s v := by
  intro f1
  induction f1 with
  | zero => intro f2 s v h1 _; omega
  | succ f1 ih =>
    intro f2 s v h1 h2
    obtain ⟨f2', rfl⟩ : ∃ f2', f2 = f2' + 1 := ⟨f2 - 1, by omega⟩
    match s, v with
    | .str, none => rfl
    | .str, some j => cases j <;> rfl
    | .strRefine test msg, none => rfl
    | .strRefine test msg, some j => cases j <;> rfl
    | .optStrRefine test msg, none => rfl
    | .optStrRefine test msg, some j => cases j <;> rfl
    | .num, none => rfl
    | .num, some j => cases j <;> rfl
    | .any, v => rfl
    | .opt s', none => rfl
    | .opt s', some j =>
      rw [zparseF, zparseF]
      rw [zdepth] at h1 h2
      exact ih f2' s' (some j) (by omega) (by omega)
    | .obj shape pass, none => rfl
    | .obj shape pass, some (.obj kvs) =>
      rw [zparseF, zparseF]
      rw [zdepth] at h1 h2
      rw [parseFields_congr kvs shape
        (fun k s' hm w => ih f2' s' w
          (by have := zdepth_le_of_mem_shape hm; omega)
          (by have := zdepth_le_of_mem_shape hm; omega))]
    | .obj _ _, some .null | .obj _ _, some (.bool _) | .obj _ _, some (.num _)
    | .obj _ _, some (.str _) | .obj _ _, some (.arr _) => rfl
    | .arr e, none => rfl
    | .arr e, some (.arr xs) =>
      rw [zparseF, zparseF]
      rw [zdepth] at h1 h2
      rw [parseItems_congr (fun x => ih f2' e (some x) (by omega) (by omega)) 0 xs]
    | .arr _, some .null | .arr _, some (.bool _) | .arr _, some (.num _)
    | .arr _, some (.str _) | .arr _, some (.obj _) => rfl
    | .record e, none => rfl
    | .record e, some (.obj kvs) =>
      rw [zparseF, zparseF]
      rw [zdepth] at h1 h2
      rw [parseRecordEntries_congr (fun x => ih f2' e (some x) (by omega) (by omega)) kvs]
    | .record _, some .null | .record _, some (.bool _) | .record _, some (.num _)
    | .record _, some (.str _) | .record _, some (.arr _) => rfl
    | .union2 a b, v =>
      rw [zparseF, zparseF]
      rw [zdepth] at h1 h2
      rw [ih f2' a v (by omega) (by omega), ih f2' b v (by omega) (by omega)]

/-- C1 counterexample: a value of the form `{"$ref": "./some/path"}` does
**not** validate in any of the eight StandardDefinition-typed fields of
Promises / Expectations / Obligations: the zod schemas declare these fields
as `standardDefinitionSchema.optional()` with no Reference branch (matching
the repository's own `types.ts`, where e.g. `api?: StandardDefinition`), so
a bare reference object fails the required `name`, `version`,
`specification` and `definition` fields. -/
theorem bag_ref_values_rejected :
    zaccepts promisesSchema (.obj [("api", .obj [("$ref", .str "./some/path")])]) = false ∧
    zaccepts promisesSchema (.obj [("deprecationPolicy", .obj [("$ref", .str "./some/path")])]) = false ∧
    zaccepts promisesSchema (.obj [("slo", .obj [("$ref", .str "./some/path")])]) = false ∧
    zaccepts expectationsSchema (.obj [("audience", .obj [("$ref", .str "./some/path")])]) = false ∧
    zaccepts expectationsSchema (.obj [("usage", .obj [("$ref", .str "./some/path")])]) = false ∧
    zaccepts obligationsSchema (.obj [("termsAndConditions", .obj [("$ref", .str "./some/path")])]) = false ∧
    zaccepts obligationsSchema (.obj [("billingPolicy", .obj [("$ref", .str "./some/path")])]) = false ∧
    zaccepts obligationsSchema (.obj [("sla", .obj [("$ref", .str "./some/path")])]) = false ∧
    zaccepts standardDefinitionSchema (.obj [("$ref", .str "./some/path")]) = false := by
  decide

/-- C1 amended: for each of the known StandardDefinition-typed fields of a
Promises / Expectations / Obligations object (`api`, `deprecationPolicy`,
`slo`, `audience`, `usage`, `termsAndConditions`, `billingPolicy`, `sla`),
a present value is accepted by validation **iff** it matches the
StandardDefinition shape alone — there is no Reference alternative, so a
bare `{$ref: …}` object is rejected (see `bag_ref_values_rejected`). -/
theorem bag_fields_accept_iff_standardDefinition :
    ∀ v : Json,
      (zaccepts promisesSchema (.obj [("api", v)]) = zaccepts standardDefinitionSchema v) ∧
      (zaccepts promisesSchema (.obj [("deprecationPolicy", v)]) = zaccepts standardDefinitionSchema v) ∧
      (zaccepts promisesSchema (.obj [("slo", v)]) = zaccepts standardDefinitionSchema v) ∧
      (zaccepts expectationsSchema (.obj [("audience", v)]) = zaccepts standardDefinitionSchema v) ∧
      (zaccepts expectationsSchema (.obj [("usage", v)]) = zaccepts standardDefinitionSchema v) ∧
      (zaccepts obligationsSchema (.obj [("termsAndConditions", v)]) = zaccepts standardDefinitionSchema v) ∧
      (zaccepts obligationsSchema (.obj [("billingPolicy", v)]) = zaccepts standardDefinitionSchema v) ∧
      (zaccepts obligationsSchema (.obj [("sla", v)]) = zaccepts standardDefinitionSchema v) := by
  intro v
  refine ⟨?_, ?_, ?_, ?_, ?_, ?_, ?_, ?_⟩
  · have hirr : zparseF 62 standardDefinitionSchema (some v) =
        zparseF parseFuel standardDefinitionSchema (some v) :=
      zparseF_fuel_irrel 62 parseFuel standardDefinitionSchema (some v) (by decide) (by decide)
    unfold zaccepts
    rw [← hirr]
    show (match zparseF (63+1) promisesSchema (some (.obj [("api", v)])) with
          | .ok _ => true | .error _ => false) =
      (match zparseF 62 standardDefinitionSchema (some v) with
          | .ok _ => true | .error _ => false)
    rw [promisesSchema, zparseF]
    simp only [parseFields, jlookup, prefixIssues, zparseF, String.reduceEq, reduceIte]
    cases h : zparseF 62 standardDefinitionSchema (some v) with
    | ok r => cases r <;> simp
    | error es =>
      have hne := zparseF_error_ne_nil 62 standardDefinitionSchema (some v) es h
      cases es with
      | nil => exact absurd rfl hne
      | cons e es2 => simp
  · have hirr : zparseF 62 standardDefinitionSchema (some v) =
        zparseF parseFuel standardDefinitionSchema (some v) :=
      zparseF_fuel_irrel 62 parseFuel standardDefinitionSchema (some v) (by decide) (by decide)
    unfold zaccepts
    rw [← hirr]
    show (match zparseF (63+1) promisesSchema (some (.obj [("deprecationPolicy", v)])) with
          | .ok _ => true | .error _ => false) =
      (match zparseF 62 standardDefinitionSchema (some v) with
          | .ok _ => true | .error _ => false)
    rw [promisesSchema, zparseF]
    simp only [parseFields, jlookup, prefixIssues, zparseF, String.reduceEq, reduceIte]
    cases h : zparseF 62 standardDefinitionSchema (some v) with
    | ok r => cases r <;> simp
    | error es =>
      have hne := zparseF_error_ne_nil 62 standardDefinitionSchema (some v) es h
      cases es with
      | nil => exact absurd rfl hne
      | cons e es2 => simp
  · have hirr : zparseF 62 standardDefinitionSchema (some v) =
        zparseF parseFuel standardDefinitionSchema (some v) :=
      zparseF_fuel_irrel 62 parseFuel standardDefinitionSchema (some v) (by decide) (by decide)
    unfold zaccepts
    rw [← hirr]
    show (match zparseF (63+1) promisesSchema (some (.obj [("slo", v)])) with
          | .ok _ => true | .error _ => false) =
      (match zparseF 62 standardDefinitionSchema (some v) with
          | .ok _ => true | .error _ => false)
    rw [promisesSchema, zparseF]
    simp only [parseFields, jlookup, prefixIssues, zparseF, String.reduceEq, reduceIte]
    cases h : zparseF 62 standardDefinitionSchema (some v) with
    | ok r => cases r <;> simp
    | error es =>
      have hne := zparseF_error_ne_nil 62 standardDefinitionSchema (some v) es h
      cases es with
      | nil => exact absurd rfl hne
      | cons e es2 => simp
  · have hirr : zparseF 62 standardDefinitionSchema (some v) =
        zparseF parseFuel standardDefinitionSchema (some v) :=
      zparseF_fuel_irrel 62 parseFuel standardDefinitionSchema (some v) (by decide) (by decide)
    unfold zaccepts
    rw [← hirr]
    show (match zparseF (63+1) expectationsSchema (some (.obj [("audience", v)])) with
          | .ok _ => true | .error _ => false) =
      (match zparseF 62 standardDefinitionSchema (some v) with
          | .ok _ => true | .error _ => false)
    rw [expectationsSchema, zparseF]
    simp only [parseFields, jlookup, prefixIssues, zparseF, String.reduceEq, reduceIte]
    cases h : zparseF 62 standardDefinitionSchema (some v) with
    | ok r => cases r <;> simp
    | error es =>
      have hne := zparseF_error_ne_nil 62 standardDefinitionSchema (some v) es h
      cases es with
      | nil => exact absurd rfl hne
      | cons e es2 => simp
  · have hirr : zparseF 62 standardDefinitionSchema (some v) =
        zparseF parseFuel standardDefinitionSchema (some v) :=
      zparseF_fuel_irrel 62 parseFuel standardDefinitionSchema (some v) (by decide) (by decide)
    unfold zaccepts
    rw [← hirr]
    show (match zparseF (63+1) expectationsSchema (some (.obj [("usage", v)])) with
          | .ok _ => true | .error _ => false) =
      (match zparseF 62 standardDefinitionSchema (some v) with
          | .ok _ => true | .error _ => false)
    rw [expectationsSchema, zparseF]
    simp only [parseFields, jlookup, prefixIssues, zparseF, String.reduceEq, reduceIte]
    cases h : zparseF 62 standardDefinitionSchema (some v) with
    | ok r => cases r <;> simp
    | error es =>
      have hne := zparseF_error_ne_nil 62 standardDefinitionSchema (some v) es h
      cases es with
      | nil => exact absurd rfl hne
      | cons e es2 => simp
  · have hirr : zparseF 62 standardDefinitionSchema (some v) =
        zparseF parseFuel standardDefinitionSchema (some v) :=
      zparseF_fuel_irrel 62 parseFuel standardDefinitionSchema (some v) (by decide) (by decide)
    unfold zaccepts
    rw [← hirr]
    show (match zparseF (63+1) obligationsSchema (some (.obj [("termsAndConditions", v)])) with
          | .ok _ => true | .error _ => false) =
      (match zparseF 62 standardDefinitionSchema (some v) with
          | .ok _ => true | .error _ => false)
    rw [obligationsSchema, zparseF]
    simp only [parseFields, jlookup, prefixIssues, zparseF, String.reduceEq, reduceIte]
    cases h : zparseF 62 standardDefinitionSchema (some v) with
    | ok r => cases r <;> simp
    | error es =>
      have hne := zparseF_error_ne_nil 62 standardDefinitionSchema (some v) es h
      cases es with
      | nil => exact absurd rfl hne
      | cons e es2 => simp
  · have hirr : zparseF 62 standardDefinitionSchema (some v) =
        zparseF parseFuel standardDefinitionSchema (some v) :=
      zparseF_fuel_irrel 62 parseFuel standardDefinitionSchema (some v) (by decide) (by decide)
    unfold zaccepts
    rw [← hirr]
    show (match zparseF (63+1) obligationsSchema (some (.obj [("billingPolicy", v)])) with
          | .ok _ => true | .error _ => false) =
      (match zparseF 62 standardDefinitionSchema (some v) with
          | .ok _ => true | .error _ => false)
    rw [obligationsSchema, zparseF]
    simp only [parseFields, jlookup, prefixIssues, zparseF, String.reduceEq, reduceIte]
    cases h : zparseF 62 standardDefinitionSchema (some v) with
    | ok r => cases r <;> simp
    | error es =>
      have hne := zparseF_error_ne_nil 62 standardDefinitionSchema (some v) es h
      cases es with
      | nil => exact absurd rfl hne
      | cons e es2 => simp
  · have hirr : zparseF 62 standardDefinitionSchema (some v) =
        zparseF parseFuel standardDefinitionSchema (some v) :=
      zparseF_fuel_irrel 62 parseFuel standardDefinitionSchema (some v) (by decide) (by decide)
    unfold zaccepts
    rw [← hirr]
    show (match zparseF (63+1) obligationsSchema (some (.obj [("sla", v)])) with
          | .ok _ => true | .error _ => false) =
      (match zparseF 62 standardDefinitionSchema (some v) with
          | .ok _ => true | .error _ => false)
    rw [obligationsSchema, zparseF]
    simp only [parseFields, jlookup, prefixIssues, zparseF, String.reduceEq, reduceIte]
    cases h : zparseF 62 standardDefinitionSchema (some v) with
    | ok r => cases r <;> simp
    | error es =>
      have hne := zparseF_error_ne_nil 62 standardDefinitionSchema (some v) es h
      cases es with
      | nil => exact absurd rfl hne
      | cons e es2 => simp

-- ===============================================================
-- C2: inversion lemmas connecting a successful parse to the structure of
-- the parsed descriptor, and the linter's per-port warnings.
-- ===============================================================

/-- First-match lookup of a field schema in an object shape. -/
def shapeLookup (k : String) : List (String × ZSchema) → Option ZSchema
  | [] => none
  | (k', s) :: rest => if k' = k then some s else shapeLookup k rest

theorem jlookup_append (k : String) (l1 l2 : List (String × Json)) :
    jlookup k (l1 ++ l2) =
      match jlookup k l1 with
      | some v => some v
      | none => jlookup k l2 := by
  induction l1 with
  | nil => rfl
  | cons kv rest ih =>
    obtain ⟨k', v⟩ := kv
    rw [List.cons_append, jlookup, jlookup]
    by_cases hk : k' = k <;> simp [hk, ih]

/-- A key declared in the shape never occurs among the passthrough extras. -/
theorem jlookup_filter_not_shape (shape : List (String × ZSchema)) (k : String)
    (hk : shapeHasKey shape k = true) (kvs : List (String × Json)) :
    jlookup k (kvs.filter (fun kv => !shapeHasKey shape kv.1)) = none := by
  induction kvs with
  | nil => rfl
  | cons kv rest ih =>
    obtain ⟨k', v⟩ := kv
    by_cases hk' : shapeHasKey shape k' = true
    · simp [List.filter_cons, hk', ih]
    · have hkk : ¬ k' = k := by
        intro he; rw [he] at hk'; exact hk' hk
      simp [List.filter_cons, hk', jlookup, hkk, ih]

/-- The successfully parsed fields carry only keys declared in the shape. -/
theorem parseFields_out_keys
    {p : ZSchema → Option Json → Except (List ZIssue) (Option Json)}
    {kvs : List (String × Json)} :
    ∀ {shape : List (String × ZSchema)} {es : List ZIssue} {out : List (String × Json)},
      parseFields p kvs shape = (es, out) →
      ∀ k, shapeLookup k shape = none → jlookup k out = none := by
  intro shape
  induction shape with
  | nil =>
    intro es out h k _
    cases h
    rfl
  | cons kv rest ih =>
    obtain ⟨k0, fs0⟩ := kv
    intro es out h k hkl
    rw [shapeLookup] at hkl
    have hk0 : ¬ k0 = k := by
      intro he; rw [if_pos he] at hkl; cases hkl
    rw [if_neg hk0] at hkl
    rw [parseFields] at h
    cases hr : p fs0 (jlookup k0 kvs) with
    | ok r =>
      cases r with
      | none =>
        simp only [hr] at h
        exact ih h k hkl
      | some pv =>
        simp only [hr] at h
        rw [Prod.mk.injEq] at h
        obtain ⟨h1, h2⟩ := h
        rw [← h2, jlookup, if_neg hk0]
        exact ih rfl k hkl
    | error es0 =>
      simp only [hr] at h
      rw [Prod.mk.injEq] at h
      obtain ⟨h1, h2⟩ := h
      rw [← h2]
      exact ih rfl k hkl

theorem shapeLookup_some_mem_keys {k : String} :
    ∀ {shape : List (String × ZSchema)} {fs : ZSchema},
      shapeLookup k shape = some fs → k ∈ shape.map Prod.fst := by
  intro shape
  induction shape with
  | nil => intro fs h; cases h
  | cons kv rest ih =>
    obtain ⟨k0, s0⟩ := kv
    intro fs h
    rw [shapeLookup] at h
    by_cases hk : k0 = k
    · rw [List.map_cons, hk]; exact List.mem_cons_self _ _
    · rw [if_neg hk] at h
      rw [List.map_cons]
      exact List.mem_cons_of_mem _ (ih h)

/-- On an issue-free field pass, looking a declared key up in the parsed
fields gives exactly that field's parse result. Requires the shape's keys to
be distinct (true of every schema in zodSchemas.ts). -/
theorem parseFields_ok_lookup
    {p : ZSchema → Option Json → Except (List ZIssue) (Option Json)}
    {kvs : List (String × Json)} :
    ∀ {shape : List (String × ZSchema)} {out : List (String × Json)},
      parseFields p kvs shape = ([], out) →
      (shape.map Prod.fst).Nodup →
      ∀ {k : String} {t : ZSchema}, shapeLookup k shape = some t →
      jlookup k out =
        match p t (jlookup k kvs) with
        | .ok r => r
        | .error _ => none := by
  intro shape
  induction shape with
  | nil => intro out _ _ k fs hkl; cases hkl
  | cons kv rest ih =>
    obtain ⟨k0, fs0⟩ := kv
    intro out h hnd k fs hkl
    rw [List.map_cons, List.nodup_cons] at hnd
    obtain ⟨hk0nd, hndrest⟩ := hnd
    rw [shapeLookup] at hkl
    rw [parseFields] at h
    have hslrest : shapeLookup k0 rest = none := by
      cases hsl : shapeLookup k0 rest with
      | none => rfl
      | some fs2 => exact absurd (shapeLookup_some_mem_keys hsl) hk0nd
    by_cases hk : k0 = k
    · rw [if_pos hk] at hkl
      cases hkl
      subst hk
      cases hr : p fs0 (jlookup k0 kvs) with
      | ok r =>
        simp only [hr] at h ⊢
        cases r with
        | none =>
          rw [parseFields_out_keys h k0 hslrest]
        | some pv =>
          rw [Prod.mk.injEq] at h
          obtain ⟨h1, h2⟩ := h
          rw [← h2, jlookup, if_pos rfl]
      | error es0 =>
        simp only [hr] at h ⊢
        rw [Prod.mk.injEq] at h
        obtain ⟨h1, h2⟩ := h
        have h1' : (parseFields p kvs rest).1 = [] := (List.append_eq_nil.mp h1).2
        have ht : parseFields p kvs rest = ([], out) := by
          rw [← h2, ← h1']
        rw [parseFields_out_keys ht k0 hslrest]
    · rw [if_neg hk] at hkl
      cases hr : p fs0 (jlookup k0 kvs) with
      | ok r =>
        simp only [hr] at h
        cases r with
        | none => exact ih h hndrest hkl
        | some pv =>
          rw [Prod.mk.injEq] at h
          obtain ⟨h1, h2⟩ := h
          rw [← h2, jlookup, if_neg hk]
          exact ih (by rw [← h1]) hndrest hkl
      | error es0 =>
        simp only [hr] at h
        rw [Prod.mk.injEq] at h
        obtain ⟨h1, h2⟩ := h
        have h1' : (parseFields p kvs rest).1 = [] := (List.append_eq_nil.mp h1).2
        have ht : parseFields p kvs rest = ([], out) := by
          rw [← h2, ← h1']
        exact ih ht hndrest hkl

/-- When the field pass produced no issues, every declared field parsed
successfully (given that the field parser never fails with an empty issue
list, as `zparseF` does not). -/
theorem parseFields_ok_field
    {p : ZSchema → Option Json → Except (List ZIssue) (Option Json)}
    {kvs : List (String × Json)}
    (hne : ∀ s w es, p s w = .error es → es ≠ []) :
    ∀ {shape : List (String × ZSchema)} {out : List (String × Json)},
      parseFields p kvs shape = ([], out) →
      ∀ {k : String} {fs : ZSchema}, (k, fs) ∈ shape →
        ∃ r, p fs (jlookup k kvs) = .ok r := by
  intro shape
  induction shape with
  | nil => intro out _ k fs hm; cases hm
  | cons kv rest ih =>
    obtain ⟨k0, fs0⟩ := kv
    intro out h k fs hm
    rw [parseFields] at h
    cases hr : p fs0 (jlookup k0 kvs) with
    | ok r =>
      simp only [hr] at h
      rcases List.mem_cons.mp hm with hm | hm
      · cases hm; exact ⟨r, hr⟩
      · cases r with
        | none => exact ih h hm
        | some pv =>
          rw [Prod.mk.injEq] at h
          obtain ⟨h1, h2⟩ := h
          exact ih (by rw [← h1]) hm
    | error es0 =>
      simp only [hr] at h
      rw [Prod.mk.injEq] at h
      obtain ⟨h1, h2⟩ := h
      have : prefixIssues k0 es0 = [] := (List.append_eq_nil.mp h1).1
      have hes0 : es0 = [] := by
        cases es0 with
        | nil => rfl
        | cons e es' => cases this
      exact absurd hes0 (hne fs0 (jlookup k0 kvs) es0 hr)

/-- Inversion of a successful required refined-string parse. -/
theorem strRefine_ok {f : Nat} {test : Option String → Bool} {msg : String}
    {w : Option Json} {r : Option Json}
    (h : zparseF f (.strRefine test msg) w = .ok r) :
    ∃ n : String, w = some (.str n) ∧ test (some n) = true ∧ r = some (.str n) := by
  match f, w with
  | 0, _ => cases h
  | f + 1, none => cases h
  | f + 1, some (.str t) =>
    rw [zparseF] at h
    split at h
    · cases h
      exact ⟨t, rfl, by assumption, rfl⟩
    · cases h
  | f + 1, some .null => cases h
  | f + 1, some (.bool b) => cases h
  | f + 1, some (.num n) => cases h
  | f + 1, some (.arr xs) => cases h
  | f + 1, some (.obj kvs) => cases h

/-- Inversion of a successful object parse: the input and output are
objects, the field pass is issue-free, and the output is the parsed fields
followed by the passthrough extras. -/
theorem objSchema_ok_inv {f : Nat} {shape : List (String × ZSchema)}
    {pass : Bool} {j : Json} {r : Option Json}
    (h : zparseF (f + 1) (.obj shape pass) (some j) = .ok r) :
    ∃ (kvs out : List (String × Json)),
      j = .obj kvs ∧
      parseFields (zparseF f) kvs shape = ([], out) ∧
      r = some (.obj (out ++
        (if pass then kvs.filter (fun kv => !shapeHasKey shape kv.1) else []))) := by
  match j with
  | .null | .bool _ | .num _ | .str _ | .arr _ => cases h
  | .obj kvs =>
    rw [zparseF] at h
    cases hr : (parseFields (zparseF f) kvs shape).1 with
    | nil =>
      simp only [hr] at h
      cases h
      exact ⟨kvs, (parseFields (zparseF f) kvs shape).2, rfl,
        by rw [← hr], rfl⟩
    | cons e es =>
      simp only [hr] at h
      cases h

/-- Inversion of a successful union parse: the first branch succeeded with
the result, or the first branch failed and the second succeeded with it. -/
theorem union2_ok_inv {f : Nat} {a b : ZSchema} {v : Option Json} {r : Option Json}
    (h : zparseF (f + 1) (.union2 a b) v = .ok r) :
    zparseF f a v = .ok r ∨
      ((∃ es, zparseF f a v = .error es) ∧ zparseF f b v = .ok r) := by
  rw [zparseF] at h
  cases ha : zparseF f a v with
  | ok ra =>
    simp only [ha] at h
    cases h
    exact Or.inl rfl
  | error ea =>
    simp only [ha] at h
    cases hb : zparseF f b v with
    | ok rb =>
      simp only [hb] at h
      cases h
      exact Or.inr ⟨⟨ea, rfl⟩, rfl⟩
    | error eb =>
      simp only [hb] at h
      cases h

/-- Inversion of an issue-free element pass: same length, and the n-th
output element is the parse of the n-th input element. -/
theorem parseItems_ok_get
    {p : Json → Except (List ZIssue) (Option Json)}
    (hne : ∀ x es, p x = .error es → es ≠ []) :
    ∀ {xs : List Json} {i : Nat} {ys : List Json},
      parseItems p i xs = ([], ys) →
      ∀ {n : Nat} {x : Json}, xs[n]? = some x →
        ∃ pv, p x = .ok pv ∧ ys[n]? = some (pv.getD x) := by
  intro xs
  induction xs with
  | nil => intro i ys h n x hx; cases hx
  | cons x0 rest ih =>
    intro i ys h n x hx
    rw [parseItems] at h
    cases hr : p x0 with
    | ok pv0 =>
      simp only [hr] at h
      cases htail : (parseItems p (i + 1) rest) with
      | mk tes tout =>
        rw [htail] at h
        rw [Prod.mk.injEq] at h
        obtain ⟨h1, h2⟩ := h
        subst h1
        cases n with
        | zero =>
          rw [List.getElem?_cons_zero] at hx
          cases hx
          exact ⟨pv0, hr, by rw [← h2]; simp⟩
        | succ n =>
          rw [List.getElem?_cons_succ] at hx
          obtain ⟨pv, hp, hy⟩ := ih htail hx
          exact ⟨pv, hp, by rw [← h2, List.getElem?_cons_succ]; exact hy⟩
    | error es0 =>
      simp only [hr] at h
      rw [Prod.mk.injEq] at h
      obtain ⟨h1, h2⟩ := h
      have : prefixIssues (toString i) es0 = [] := (List.append_eq_nil.mp h1).1
      have hes0 : es0 = [] := by
        cases es0 with
        | nil => rfl
        | cons e es' => cases this
      exact absurd hes0 (hne x0 es0 hr)

/-- Inversion of a successful array parse. -/
theorem arrSchema_ok_inv {f : Nat} {e : ZSchema} {j : Json} {r : Option Json}
    (h : zparseF (f + 1) (.arr e) (some j) = .ok r) :
    ∃ (xs ys : List Json),
      j = .arr xs ∧
      parseItems (fun x => zparseF f e (some x)) 0 xs = ([], ys) ∧
      r = some (.arr ys) := by
  match j with
  | .null | .bool _ | .num _ | .str _ | .obj _ => cases h
  | .arr xs =>
    rw [zparseF] at h
    cases hr : (parseItems (fun x => zparseF f e (some x)) 0 xs).1 with
    | nil =>
      simp only [hr] at h
      cases h
      exact ⟨xs, (parseItems (fun x => zparseF f e (some x)) 0 xs).2, rfl,
        by rw [← hr], rfl⟩
    | cons e0 es =>
      simp only [hr] at h
      cases h

/-- A successfully parsed (non-Reference) port always carries a `name` that
is a camelCase — in particular non-empty — string: `name` is a required
field of `portSchema`'s entity base. -/
theorem portParse_name {f : Nat} {j d : Json}
    (h : zparseF (f + 1) portSchema (some j) = .ok (some d)) :
    ∃ n : String, getKey d "name" = some (.str n) ∧ camelCaseMatch n.data = true := by
  unfold portSchema at h
  obtain ⟨kvs, out, hj, hpf, hr⟩ := objSchema_ok_inv h
  injection hr with hd
  have hlk := parseFields_ok_lookup hpf (by decide)
    (k := "name")
    (t := .strRefine isValidCamelCase "name must be in a valid format (camelCase)") rfl
  have hmem : (("name", ZSchema.strRefine isValidCamelCase
      "name must be in a valid format (camelCase)")) ∈ entityShape ++
      [("promises", ZSchema.opt (.union2 promisesSchema referenceSchema)),
       ("expectations", ZSchema.opt (.union2 expectationsSchema referenceSchema)),
       ("obligations", ZSchema.opt (.union2 obligationsSchema referenceSchema))] := by
    refine List.mem_append_left _ ?_
    rw [entityShape]
    exact .tail _ (.tail _ (.tail _ (.head _)))
  obtain ⟨r, hrf⟩ := parseFields_ok_field
    (fun s w es he => zparseF_error_ne_nil f s w es he) hpf hmem
  obtain ⟨n, hw, htest, hrr⟩ := strRefine_ok hrf
  subst hrr
  rw [hrf] at hlk
  refine ⟨n, ?_, htest⟩
  rw [hd, getKey, jlookup_append, hlk]

/-- A successfully parsed Reference always carries its required `$ref` key. -/
theorem referenceParse_ref {f : Nat} {j d : Json}
    (h : zparseF (f + 1) referenceSchema (some j) = .ok (some d)) :
    hasKey d "$ref" = true := by
  unfold referenceSchema at h
  obtain ⟨kvs, out, hj, hpf, hr⟩ := objSchema_ok_inv h
  injection hr with hd
  have hlk := parseFields_ok_lookup hpf (by decide)
    (k := "$ref")
    (t := .strRefine isValidUriReference "$ref must be a valid URI reference") rfl
  have hmem : (("$ref", ZSchema.strRefine isValidUriReference
      "$ref must be a valid URI reference")) ∈
      [("$ref", ZSchema.strRefine isValidUriReference "$ref must be a valid URI reference"),
       ("mediaType", ZSchema.opt .str), ("description", ZSchema.opt .str)] :=
    .head _
  obtain ⟨r, hrf⟩ := parseFields_ok_field
    (fun s w es he => zparseF_error_ne_nil f s w es he) hpf hmem
  obtain ⟨n, hw, htest, hrr⟩ := strRefine_ok hrf
  subst hrr
  rw [hrf] at hlk
  rw [hd, hasKey, getKey, jlookup_append, hlk]
  rfl

/-- Length of an issue-free element pass. -/
theorem parseItems_ok_length
    {p : Json → Except (List ZIssue) (Option Json)}
    (hne : ∀ x es, p x = .error es → es ≠ []) :
    ∀ {xs : List Json} {i : Nat} {ys : List Json},
      parseItems p i xs = ([], ys) → ys.length = xs.length := by
  intro xs
  induction xs with
  | nil => intro i ys h; cases h; rfl
  | cons x0 rest ih =>
    intro i ys h
    rw [parseItems] at h
    cases hr : p x0 with
    | ok pv0 =>
      simp only [hr] at h
      cases htail : (parseItems p (i + 1) rest) with
      | mk tes tout =>
        rw [htail] at h
        rw [Prod.mk.injEq] at h
        obtain ⟨h1, h2⟩ := h
        subst h1
        rw [← h2, List.length_cons, List.length_cons, ih htail]
    | error es0 =>
      simp only [hr] at h
      rw [Prod.mk.injEq] at h
      obtain ⟨h1, h2⟩ := h
      have : prefixIssues (toString i) es0 = [] := (List.append_eq_nil.mp h1).1
      have hes0 : es0 = [] := by
        cases es0 with
        | nil => rfl
        | cons e es' => cases this
      exact absurd hes0 (hne x0 es0 hr)

/-- Every descriptor that validates successfully has an `outputPorts` array
in its parsed `interfaceComponents`, and each of its entries that carries no
`$ref` key carries a camelCase (non-empty) string `name`. -/
theorem valid_descriptor_outputPorts {j d : Json}
    (h : validateDataProductDescriptor j = .ok d) :
    ∃ ports : List Json,
      getKey ((getKey d "interfaceComponents").getD .null) "outputPorts" =
        some (.arr ports) ∧
      ∀ (i : Nat) (p : Json), ports[i]? = some p → hasKey p "$ref" = false →
        ∃ n : String, getKey p "name" = some (.str n) ∧ camelCaseMatch n.data = true := by
  have hne : ∀ (f : Nat) s w es, zparseF f s w = .error es → es ≠ [] :=
    fun f => zparseF_error_ne_nil f
  unfold validateDataProductDescriptor safeParse at h
  cases hz : zparseF parseFuel dataProductDescriptorSchema (some j) with
  | error es => rw [hz] at h; cases h
  | ok r =>
    rw [hz] at h
    injection h with hd
    have hz' : zparseF (63 + 1) (.obj
        [("dataProductDescriptor", .strRefine isValidVersion
            "dataProductDescriptor must follow semantic versioning format"),
         ("info", infoSchema),
         ("interfaceComponents", interfaceComponentsSchema),
         ("internalComponents", .opt internalComponentsSchema),
         ("components", .opt componentsSchema),
         ("tags", .opt (.arr .str)),
         ("externalDocs", .opt externalResourceSchema)] false) (some j) = .ok r := hz
    obtain ⟨kvs, out, hj, hpf, hr⟩ := objSchema_ok_inv hz'
    have hrd : r = some (.obj (out ++ [])) := hr
    have hdval : d = .obj (out ++ []) := by rw [← hd, hrd]; rfl
    -- the interfaceComponents field parsed successfully…
    have hmemIC : ("interfaceComponents", interfaceComponentsSchema) ∈
        [("dataProductDescriptor", ZSchema.strRefine isValidVersion
            "dataProductDescriptor must follow semantic versioning format"),
         ("info", infoSchema),
         ("interfaceComponents", interfaceComponentsSchema),
         ("internalComponents", ZSchema.opt internalComponentsSchema),
         ("components", ZSchema.opt componentsSchema),
         ("tags", ZSchema.opt (.arr .str)),
         ("externalDocs", ZSchema.opt externalResourceSchema)] :=
      .tail _ (.tail _ (.head _))
    obtain ⟨ric, hric⟩ := parseFields_ok_field
      (fun s w es he => hne 63 s w es he) hpf hmemIC
    have hlkIC := parseFields_ok_lookup hpf (by decide)
      (k := "interfaceComponents") (t := interfaceComponentsSchema) rfl
    rw [hric] at hlkIC
    have hlkIC2 : jlookup "interfaceComponents" out = ric := hlkIC
    -- …so its raw value was present (the schema is a required object)…
    cases hwIC : jlookup "interfaceComponents" kvs with
    | none =>
      rw [hwIC] at hric
      have hbad : zparseF (62 + 1) (.obj
          [("inputPorts", .opt (.arr (.union2 inputPortSchema referenceSchema))),
           ("outputPorts", .arr (.union2 outputPortSchema referenceSchema)),
           ("discoveryPorts", .opt (.arr (.union2 discoveryPortSchema referenceSchema))),
           ("observabilityPorts", .opt (.arr (.union2 observabilityPortSchema referenceSchema))),
           ("controlPorts", .opt (.arr (.union2 controlPortSchema referenceSchema)))] false)
          none = .ok ric := hric
      cases hbad
    | some jIC =>
      rw [hwIC] at hric
      have hric' : zparseF (62 + 1) (.obj
          [("inputPorts", .opt (.arr (.union2 inputPortSchema referenceSchema))),
           ("outputPorts", .arr (.union2 outputPortSchema referenceSchema)),
           ("discoveryPorts", .opt (.arr (.union2 discoveryPortSchema referenceSchema))),
           ("observabilityPorts", .opt (.arr (.union2 observabilityPortSchema referenceSchema))),
           ("controlPorts", .opt (.arr (.union2 controlPortSchema referenceSchema)))] false)
          (some jIC) = .ok ric := hric
      obtain ⟨kvsIC, outIC, hjIC, hpfIC, hrIC⟩ := objSchema_ok_inv hric'
      have hricval : ric = some (.obj (outIC ++ [])) := hrIC
      -- …and inside it the required outputPorts array parsed successfully.
      have hmemOP : ("outputPorts",
          ZSchema.arr (.union2 outputPortSchema referenceSchema)) ∈
          [("inputPorts", ZSchema.opt (.arr (.union2 inputPortSchema referenceSchema))),
           ("outputPorts", ZSchema.arr (.union2 outputPortSchema referenceSchema)),
           ("discoveryPorts", ZSchema.opt (.arr (.union2 discoveryPortSchema referenceSchema))),
           ("observabilityPorts", ZSchema.opt (.arr (.union2 observabilityPortSchema referenceSchema))),
           ("controlPorts", ZSchema.opt (.arr (.union2 controlPortSchema referenceSchema)))] :=
        .tail _ (.head _)
      obtain ⟨rop, hrop⟩ := parseFields_ok_field
        (fun s w es he => hne 62 s w es he) hpfIC hmemOP
      have hlkOP := parseFields_ok_lookup hpfIC (by decide)
        (k := "outputPorts") (t := .arr (.union2 outputPortSchema referenceSchema)) rfl
      rw [hrop] at hlkOP
      have hlkOP2 : jlookup "outputPorts" outIC = rop := hlkOP
      cases hwOP : jlookup "outputPorts" kvsIC with
      | none =>
        rw [hwOP] at hrop
        have hbad : zparseF (61 + 1) (.arr (.union2 outputPortSchema referenceSchema))
            none = .ok rop := hrop
        cases hbad
      | some jOP =>
        rw [hwOP] at hrop
        have hrop' : zparseF (61 + 1) (.arr (.union2 outputPortSchema referenceSchema))
            (some jOP) = .ok rop := hrop
        obtain ⟨xs, ys, hjOP, hitems, hropval⟩ := arrSchema_ok_inv hrop'
        refine ⟨ys, ?_, ?_⟩
        · have hgk : getKey d "interfaceComponents" = some (.obj (outIC ++ [])) := by
            rw [hdval, getKey, jlookup_append, hlkIC2, hricval]
          rw [hgk, Option.getD_some, getKey, jlookup_append, hlkOP2, hropval]
        · intro i p hp href
          have hiLen : i < ys.length := by
            by_contra hc
            push_neg at hc
            rw [List.getElem?_eq_none hc] at hp
            cases hp
          have hxLen : i < xs.length := by
            rw [← parseItems_ok_length (fun x es he => hne 61 _ _ es he) hitems]
            exact hiLen
          obtain ⟨x, hx⟩ : ∃ x, xs[i]? = some x :=
            ⟨xs[i], List.getElem?_eq_some.mpr ⟨hxLen, rfl⟩⟩
          obtain ⟨pv, hpv, hyi⟩ :=
            parseItems_ok_get (fun x es he => hne 61 _ _ es he) hitems hx
          have hpeq : p = pv.getD x := by
            rw [hp] at hyi
            injection hyi
          have hpv' : zparseF (60 + 1) (.union2 outputPortSchema referenceSchema)
              (some x) = .ok pv := hpv
          rcases union2_ok_inv hpv' with hport | ⟨_, href2⟩
          · -- port branch: required camelCase name.
            have hport2 : zparseF (59 + 1) (.obj (entityShape ++
                [("promises", .opt (.union2 promisesSchema referenceSchema)),
                 ("expectations", .opt (.union2 expectationsSchema referenceSchema)),
                 ("obligations", .opt (.union2 obligationsSchema referenceSchema))]) true)
                (some x) = .ok pv := hport
            obtain ⟨kvsP, outP, hjP, hpfP, hrP⟩ := objSchema_ok_inv hport2
            have hpvval : pv = some (.obj (outP ++
                kvsP.filter (fun kv => !shapeHasKey (entityShape ++
                  [("promises", .opt (.union2 promisesSchema referenceSchema)),
                   ("expectations", .opt (.union2 expectationsSchema referenceSchema)),
                   ("obligations", .opt (.union2 obligationsSchema referenceSchema))]) kv.1))) := hrP
            have hpj : p = .obj (outP ++
                kvsP.filter (fun kv => !shapeHasKey (entityShape ++
                  [("promises", .opt (.union2 promisesSchema referenceSchema)),
                   ("expectations", .opt (.union2 expectationsSchema referenceSchema)),
                   ("obligations", .opt (.union2 obligationsSchema referenceSchema))]) kv.1)) := by
              rw [hpeq, hpvval, Option.getD_some]
            have hpd : zparseF (59 + 1) portSchema (some x) = .ok (some p) := by
              show zparseF (59 + 1) (.obj (entityShape ++
                [("promises", .opt (.union2 promisesSchema referenceSchema)),
                 ("expectations", .opt (.union2 expectationsSchema referenceSchema)),
                 ("obligations", .opt (.union2 obligationsSchema referenceSchema))]) true)
                (some x) = .ok (some p)
              rw [hport2, hpvval, hpj]
            exact portParse_name hpd
          · -- reference branch: the parsed entry carries `$ref`,
            -- contradicting the hypothesis.
            exfalso
            have href3 : zparseF (59 + 1) (.obj
                [("$ref", .strRefine isValidUriReference "$ref must be a valid URI reference"),
                 ("mediaType", .opt .str), ("description", .opt .str)] false)
                (some x) = .ok pv := href2
            obtain ⟨kvsR, outR, hjR, hpfR, hrR⟩ := objSchema_ok_inv href3
            have hpvval : pv = some (.obj (outR ++ [])) := hrR
            have hpj : p = .obj (outR ++ []) := by
              rw [hpeq, hpvval, Option.getD_some]
            have hpd : zparseF (59 + 1) referenceSchema (some x) = .ok (some p) := by
              show zparseF (59 + 1) (.obj
                [("$ref", .strRefine isValidUriReference "$ref must be a valid URI reference"),
                 ("mediaType", .opt .str), ("description", .opt .str)] false)
                (some x) = .ok (some p)
              rw [href3, hpvval, hpj]
            rw [referenceParse_ref hpd] at href
            cases href

/-- Modelled from the claim's wording: each warning "names the port by its
`name` when present, otherwise by its 1-based positional index in the form
`#<n>`". (The implementation's label, `portLabel`, uses the 0-based
`forEach` index in its fallback; the two coincide on every reachable case
because a schema-valid non-Reference port always has a truthy name, see
`valid_descriptor_outputPorts`.) -/
def claimPortLabel (port : Json) (index : Nat) : String :=
  match getKey port "name" with
  | some v => jsToString v
  | none => "#" ++ toString (index + 1)

theorem portWarnings_mem_desc :
    ∀ (ports : List Json) (start i : Nat) (p : Json),
      ports[i]? = some p → hasKey p "$ref" = false →
      truthyOpt (getKey p "description") = false →
      ("Missing description for output port " ++ portLabel p (start + i)) ∈
        portWarnings start ports := by
  intro ports
  induction ports with
  | nil => intro start i p hp _ _; rw [List.getElem?_nil] at hp; cases hp
  | cons q rest ih =>
    intro start i p hp href hdesc
    rw [portWarnings]
    cases i with
    | zero =>
      rw [List.getElem?_cons_zero] at hp
      injection hp with hp
      subst hp
      simp [href, hdesc]
    | succ i2 =>
      rw [List.getElem?_cons_succ] at hp
      refine List.mem_append_right _ ?_
      have harith : start + (i2 + 1) = (start + 1) + i2 := by omega
      rw [harith]
      exact ih (start + 1) i2 p hp href hdesc

theorem portWarnings_mem_promises :
    ∀ (ports : List Json) (start i : Nat) (p : Json),
      ports[i]? = some p → hasKey p "$ref" = false →
      truthyOpt (getKey p "promises") = false →
      ("Missing promises in output port " ++ portLabel p (start + i)) ∈
        portWarnings start ports := by
  intro ports
  induction ports with
  | nil => intro start i p hp _ _; rw [List.getElem?_nil] at hp; cases hp
  | cons q rest ih =>
    intro start i p hp href hprom
    rw [portWarnings]
    cases i with
    | zero =>
      rw [List.getElem?_cons_zero] at hp
      injection hp with hp
      subst hp
      simp [href, hprom]
    | succ i2 =>
      rw [List.getElem?_cons_succ] at hp
      refine List.mem_append_right _ ?_
      have harith : start + (i2 + 1) = (start + 1) + i2 := by omega
      rw [harith]
      exact ih (start + 1) i2 p hp href hprom

/-- C2: for every valid descriptor and every entry of
`interfaceComponents.outputPorts` that is not a Reference (Reference
entries — those carrying `$ref` — are skipped entirely), the linter warns
when `description` is absent and warns when `promises` is absent, and each
such warning names the port as the claim describes — by its `name` when
present, otherwise by `#<n>` with `n` the 1-based position
(`claimPortLabel`); on valid descriptors this labelling coincides with the
implementation's, since a schema-valid non-Reference port always has a
(truthy) `name`. -/
theorem output_port_lint_warnings :
    ∀ (j d : Json), validateDataProductDescriptor j = .ok d →
    ∀ (ports : List Json),
      getKey ((getKey d "interfaceComponents").getD .null) "outputPorts" =
        some (.arr ports) →
    ∀ (i : Nat) (p : Json), ports[i]? = some p → hasKey p "$ref" = false →
      claimPortLabel p i = portLabel p i ∧
      (getKey p "description" = none →
        ("Missing description for output port " ++ claimPortLabel p i) ∈
          checkBestPractices d) ∧
      (getKey p "promises" = none →
        ("Missing promises in output port " ++ claimPortLabel p i) ∈
          checkBestPractices d) := by
  intro j d h ports hports i p hp href
  obtain ⟨ports2, hports2, hname⟩ := valid_descriptor_outputPorts h
  have hpp : ports = ports2 := by
    have := hports.symm.trans hports2
    injection this with he
    injection he
  subst hpp
  obtain ⟨n, hn, hcam⟩ := hname i p hp href
  have hnne : ¬ n = "" := by
    intro he
    subst he
    cases hcam
  have htr : jsTruthy (.str n) = true := by simp [jsTruthy, hnne]
  have hlabels : claimPortLabel p i = portLabel p i := by
    rw [claimPortLabel, portLabel, hn]
    simp [htr]
  refine ⟨hlabels, ?_, ?_⟩
  · intro hdesc
    have hdesc' : truthyOpt (getKey p "description") = false := by
      rw [hdesc]; rfl
    have hm := portWarnings_mem_desc ports 0 i p hp href hdesc'
    rw [Nat.zero_add] at hm
    rw [hlabels]
    unfold checkBestPractices
    rw [hports]
    exact List.mem_append_left _ (List.mem_append_right _ hm)
  · intro hprom
    have hprom' : truthyOpt (getKey p "promises") = false := by
      rw [hprom]; rfl
    have hm := portWarnings_mem_promises ports 0 i p hp href hprom'
    rw [Nat.zero_add] at hm
    rw [hlabels]
    unfold checkBestPractices
    rw [hports]
    exact List.mem_append_left _ (List.mem_append_right _ hm)

/-- A valid descriptor with one output port that has neither a description
nor promises. -/
def onePortDescriptor : Json :=
  .obj [("dataProductDescriptor", .str "1.0.0"),
        ("info", .obj [("fullyQualifiedName", .str "urn:dpds:org.example:dataproducts:sample:1"),
                       ("name", .str "sample"),
                       ("version", .str "1.0.0"),
                       ("domain", .str "org.example"),
                       ("owner", .obj [("id", .str "o1")])]),
        ("interfaceComponents", .obj [("outputPorts",
          .arr [.obj [("name", .str "portOne"), ("version", .str "1.0.0")]])])]

/-- The parse of `onePortDescriptor` (identical to the input: every key is
declared in its schema's shape). -/
def onePortParsed : Json := onePortDescriptor

/-- The parsed port entry of `onePortDescriptor`. -/
def onePortEntry : Json :=
  .obj [("name", .str "portOne"), ("version", .str "1.0.0")]

/-- Witness for C2: on `onePortDescriptor`, the first (0-indexed) output
port lacks both `description` and `promises`, and the two warnings named
with the port's name appear in the linter output. -/
theorem output_port_lint_warnings_witness :
    claimPortLabel onePortEntry 0 = portLabel onePortEntry 0 ∧
    (getKey onePortEntry "description" = none →
      ("Missing description for output port " ++ claimPortLabel onePortEntry 0) ∈
        checkBestPractices onePortParsed) ∧
    (getKey onePortEntry "promises" = none →
      ("Missing promises in output port " ++ claimPortLabel onePortEntry 0) ∈
        checkBestPractices onePortParsed) :=
  output_port_lint_warnings onePortDescriptor onePortParsed (by decide)
    [onePortEntry] (by decide) 0 onePortEntry (by decide) (by decide)
